import Mathlib

/-!
# WaveVisual: the simulation-to-render bridge of the ocean surface shader

A shallow embedding of `mbzirc_ign/src/WaveVisual.cc`:

* the component state `WaveVisualPrivate` (one field per data member),
* `WaveVisual.Configure`, `WaveVisual.PreUpdate` and `WaveVisualPrivate.OnUpdate`
  as functions from a state to a new state together with the list of calls
  they make on the outside world (the lock, the logger, the renderer),
* the breadth-first loop of `OnUpdate` as a queue loop with an iteration
  budget that is shown never to run out.

Machine numbers: entity ids are 64-bit unsigned (`Nat`), `int` is `Int` with an
explicit 32-bit two's-complement conversion, the simulation time is the signed
nanosecond count of a `std::chrono` duration, and `double`/`float` values are
the rational numbers they denote, with conversions rounding to nearest, ties
to even, at 53 resp. 24 significant bits (exponent range not modelled).
-/

set_option linter.unusedVariables false

/-! ## Numbers -/

/-- Entity identifier (`uint64_t`). -/
abbrev Entity := Nat

/-- The null entity of the simulator. -/
def kNullEntity : Entity := 0

/-- Conversion `static_cast<int>(x)` of an unsigned 64-bit value: the low 32
bits read as a two's-complement number. -/
def static_cast_int (x : Nat) : Int :=
  if x % 2 ^ 32 < 2 ^ 31 then ((x % 2 ^ 32 : Nat) : Int) else ((x % 2 ^ 32 : Nat) : Int) - 2 ^ 32

/-- Nearest integer to a rational, ties to even. -/
def roundHalfEven (q : ℚ) : ℤ :=
  if q - ⌊q⌋ < 1 / 2 then ⌊q⌋
  else if 1 / 2 < q - ⌊q⌋ then ⌊q⌋ + 1
  else if ⌊q⌋ % 2 = 0 then ⌊q⌋ else ⌊q⌋ + 1

/-- Binary floating-point rounding to `p` significant bits (round to nearest,
ties to even; the exponent is unbounded). -/
def roundSig (p : ℕ) (q : ℚ) : ℚ :=
  if q = 0 then 0
  else (roundHalfEven (q / 2 ^ (Int.log 2 |q| + 1 - (p : ℤ))) : ℚ) * 2 ^ (Int.log 2 |q| + 1 - (p : ℤ))

/-- Conversion to `double` (53 significant bits). -/
def toDouble (q : ℚ) : ℚ := roundSig 53 q

/-- Conversion to `float` (24 significant bits), as done by `static_cast<float>`,
by a float literal and by an assignment to a `float` variable. -/
def toFloat (q : ℚ) : ℚ := roundSig 24 q

/-- The expression `count * 1e-9` assigned to `float floatValue` (lines 334-335):
the count is converted to double, multiplied by the double literal `1e-9`, the
product is rounded to double and then narrowed to float. -/
def secondsFloat (count : Int) : ℚ :=
  toFloat (toDouble (toDouble (count : ℚ) * toDouble (1 / 10 ^ 9)))

/-! ## Scene graph -/

/-- The value type of node user data (`rendering::Variant`). -/
inductive Variant where
  | monostate
  | int (v : Int)
  | float (v : ℚ)
  | double (v : ℚ)
  | string (v : String)
  | bool (v : Bool)
  | uint (v : Nat)
deriving DecidableEq

/-- A scene node (`rendering::NodePtr` target): its address, whether it is a
`rendering::Visual`, the user data stored under the key "gazebo-entity" (absent
when `HasUserData` is false) and its children in index order. The pointers of
a scene tree (the root visual, the children at valid indices) are not null; the
loop dereferences every node it dequeues (line 211). -/
inductive Node where
  | mk (ptr : Nat) (isVisual : Bool) (userData : Option Variant) (children : List Node)

/-- Address of the node. -/
def Node.ptr : Node → Nat
  | .mk p _ _ _ => p

/-- Whether the node is a `rendering::Visual`. -/
def Node.isVisual : Node → Bool
  | .mk _ v _ _ => v

/-- The user data under "gazebo-entity", if any. -/
def Node.userData : Node → Option Variant
  | .mk _ _ u _ => u

/-- Children `ChildByIndex(0)`, ..., `ChildByIndex(ChildCount() - 1)`. -/
def Node.children : Node → List Node
  | .mk _ _ _ cs => cs

mutual
/-- Number of nodes of the tree. -/
def Node.size : Node → Nat
  | .mk _ _ _ cs => 1 + Node.sizeList cs
/-- Number of nodes of a forest. -/
def Node.sizeList : List Node → Nat
  | [] => 0
  | c :: cs => Node.size c + Node.sizeList cs
end

mutual
/-- Number of levels of the tree. -/
def Node.height : Node → Nat
  | .mk _ _ _ cs => 1 + Node.heightList cs
/-- Number of levels of a forest. -/
def Node.heightList : List Node → Nat
  | [] => 0
  | c :: cs => max (Node.height c) (Node.heightList cs)
end

/-- The nodes at depth `k` below a node, left to right. -/
def Node.atDepth : Nat → Node → List Node
  | 0, n => [n]
  | k + 1, n => (Node.children n).flatMap (Node.atDepth k)

/-- Breadth-first order of a tree: depth 0, then depth 1 left to right, and so on. -/
def breadthFirstOrder (root : Node) : List Node :=
  (List.range (Node.height root)).flatMap (fun k => Node.atDepth k root)

/-- The alternative `std::get_if<int>(&variant)`. -/
def get_if_int : Variant → Option Int
  | .int v => some v
  | _ => none

/-- The test of lines 199-205: the node has "gazebo-entity" user data, it holds
an `int`, and that int equals `static_cast<int>(entity)`. -/
def matchesEntity (entity : Entity) (n : Node) : Bool :=
  match Node.userData n with
  | none => false
  | some variant =>
    match get_if_int variant with
    | some value => value == static_cast_int entity
    | none => false

/-- The tag of the node is the entity id itself, read literally. -/
def tagEqualsId (entity : Entity) (n : Node) : Bool :=
  decide (Node.userData n = some (Variant.int (entity : Int)))

/-- The cast `std::dynamic_pointer_cast<rendering::Visual>(n)`. -/
def dynamic_pointer_cast_Visual (n : Node) : Option Node :=
  if Node.isVisual n then some n else none

/-- The `while (!nodes.empty())` loop of lines 195-213 on the queue `nodes`,
with an iteration budget. The outer `none` means the budget ran out, the inner
value is `this->visual` when the loop exits. -/
def bfsLoop (entity : Entity) : Nat → List Node → Option (Option Node)
  | 0, _ => none
  | _ + 1, [] => some none
  | fuel + 1, n :: nodes =>
    if matchesEntity entity n then some (dynamic_pointer_cast_Visual n)
    else bfsLoop entity fuel (nodes ++ Node.children n)

/-- The lookup of lines 192-213: the loop started on the queue holding the root
visual, with one iteration per node of the tree and one for the final test. -/
def findVisual (entity : Entity) (rootVis : Node) : Option (Option Node) :=
  bfsLoop entity (Node.size rootVis + 1) [rootVis]

/-! ## The outside world -/

/-- Handle of a material (`rendering::MaterialPtr` target). -/
abbrev MaterialPtr := Nat

/-- Handle of a scene (`rendering::ScenePtr` target). -/
abbrev ScenePtr := Nat

/-- Shader stage of a parameter set. -/
inductive ShaderStage where
  | vertex
  | fragment
deriving DecidableEq

/-- Texture kinds of `rendering::ShaderParam::ParamType` used here. -/
inductive ParamType where
  | PARAM_TEXTURE
  | PARAM_TEXTURE_CUBE
deriving DecidableEq

/-- Calls made by the component on the lock, the logger, the event manager and
the renderer, and its accesses to the state shared between the two hooks. -/
inductive Event where
  | lock
  | unlock
  | ignerr (msg : String)
  | Connect
  | readSimTime
  | writeSimTime (simTime : Int)
  | readParamsSet
  | writeParamsSet
  | sceneFromFirstRenderEngine
  | RootVisual
  | CreateMaterial (mat : MaterialPtr)
  | SetVertexShader (mat : MaterialPtr) (uri : String)
  | SetFragmentShader (mat : MaterialPtr) (uri : String)
  | SetMaterial (visual : Nat) (mat : MaterialPtr)
  | DestroyMaterial (mat : MaterialPtr)
  | Material (visual : Nat)
  | VertexShaderParams (mat : MaterialPtr)
  | FragmentShaderParams (mat : MaterialPtr)
  | assignInt (mat : MaterialPtr) (stage : ShaderStage) (name : String) (v : Int)
  | assignFloat (mat : MaterialPtr) (stage : ShaderStage) (name : String) (v : ℚ)
  | InitializeBuffer (mat : MaterialPtr) (stage : ShaderStage) (name : String) (count : Nat)
  | UpdateBuffer (mat : MaterialPtr) (stage : ShaderStage) (name : String) (data : List ℚ)
  | SetTexture (mat : MaterialPtr) (stage : ShaderStage) (name : String) (path : String)
      (type : ParamType) (uvSetIndex : Nat)
deriving DecidableEq

/-- The event is a call into the rendering library. -/
def Event.isRendering : Event → Bool
  | .lock | .unlock | .ignerr _ | .Connect => false
  | .readSimTime | .writeSimTime _ | .readParamsSet | .writeParamsSet => false
  | _ => true

/-- The event is an access to the state shared between the two hooks. -/
def Event.isSharedAccess : Event → Bool
  | .readSimTime | .writeSimTime _ | .readParamsSet | .writeParamsSet => true
  | _ => false

/-- The event gives the slot `name` of stage `stage` its value (a scalar
assignment, a buffer update or a texture binding). -/
def Event.assigns (stage : ShaderStage) (name : String) : Event → Bool
  | .assignInt _ st n _ => decide (st = stage ∧ n = name)
  | .assignFloat _ st n _ => decide (st = stage ∧ n = name)
  | .UpdateBuffer _ st n _ => decide (st = stage ∧ n = name)
  | .SetTexture _ st n _ _ _ => decide (st = stage ∧ n = name)
  | _ => false

/-- The event is a call of `scene->CreateMaterial()`. -/
def Event.isCreateMaterial : Event → Bool
  | .CreateMaterial _ => true
  | _ => false

/-- Modelled from the spec: the class `Wavefield` (`Wavefield.hh`) is not among
the sources. The snapshot is the wave count, the per-wave amplitude,
wavenumber, angular frequency, 2-D direction and steepness vectors, and the
phase constant; each field is what the accessor of the same name returns. -/
structure Wavefield where
  Number : Nat
  Amplitude_V : List ℚ
  Wavenumber_V : List ℚ
  AngularFrequency_V : List ℚ
  Direction_V : List (ℚ × ℚ)
  Steepness_V : List ℚ
  Tau : ℚ

/-- Modelled from the spec: `Wavefield::Load` (`Wavefield.cc`) is not among the
sources. It replaces the content of the wavefield by the snapshot computed once
from the configuration; `loaded` is that snapshot. -/
def Wavefield.Load (_this : Wavefield) (loaded : Wavefield) : Wavefield := loaded

/-- Every per-wave vector of the snapshot has at least three entries. -/
def Wavefield.hasThreeWaves (w : Wavefield) : Prop :=
  3 ≤ w.Amplitude_V.length ∧ 3 ≤ w.Wavenumber_V.length ∧ 3 ≤ w.AngularFrequency_V.length ∧
    3 ≤ w.Direction_V.length ∧ 3 ≤ w.Steepness_V.length

instance (w : Wavefield) : Decidable w.hasThreeWaves := by
  unfold Wavefield.hasThreeWaves
  infer_instance

/-- The file services `asFullPath` and `common::findFile`. -/
structure Files where
  asFullPath : String → String → String
  findFile : String → String

/-- The `<shader>` block of the plugin descriptor. -/
structure ShaderElement where
  vertex : Option String
  fragment : Option String

/-- The plugin descriptor (`sdf::Element`): its `<wavefield>` block, given by the
snapshot that `Wavefield::Load` computes from it, and its `<shader>` block. -/
structure SdfElement where
  wavefield : Option Wavefield
  shader : Option ShaderElement

/-- What `Configure` reads from the entity-component manager: the source file
path of the top-level model (an empty `std::optional` when absent) and the name
component of the entity (a null pointer when absent). -/
structure EntityComponentManager where
  SourceFilePath : Option String
  Name : Option String

/-- What the renderer answers during one call of `OnUpdate`: the scene of the
first render engine, the root visual of the component's scene, the material
returned by `CreateMaterial`, and the material `visual->Material()` returns
after `SetMaterial`. -/
structure Frame where
  sceneFromFirstRenderEngine : Option ScenePtr
  RootVisual : Node
  CreateMaterial : MaterialPtr
  Material : Option MaterialPtr
  files : Files

/-! ## The component -/

/-- The data members of `WaveVisualPrivate` (the mutex is represented by the
`lock`/`unlock` events; `connection` records whether the pointer is set). -/
structure WaveVisualPrivate where
  vertexShaderUri : String
  fragmentShaderUri : String
  connection : Bool
  visualName : String
  visual : Option Node
  material : Option MaterialPtr
  scene : Option ScenePtr
  entity : Entity
  currentSimTime : Int
  modelPath : String
  wavefield : Wavefield
  paramsSet : Bool

/-- The state built by `std::make_unique<WaveVisualPrivate>()`: the members
with initialisers take them, the others are value-initialised; `w0` is the
default-constructed wavefield. -/
def WaveVisualPrivate.new (w0 : Wavefield) : WaveVisualPrivate where
  vertexShaderUri := ""
  fragmentShaderUri := ""
  connection := false
  visualName := ""
  visual := none
  material := none
  scene := none
  entity := kNullEntity
  currentSimTime := 0
  modelPath := ""
  wavefield := w0
  paramsSet := false

/-- `WaveVisual::Configure` (lines 104-162). The result is `none` when the
call does not return normally (`.value()` on an empty optional, or the name
component is a null pointer). -/
def WaveVisual.Configure (s : WaveVisualPrivate) (_entity : Entity) (_sdf : SdfElement)
    (_ecm : EntityComponentManager) (files : Files) : Option (WaveVisualPrivate × List Event) :=
  match _sdf.wavefield with
  | none => some (s, [Event.ignerr "<wavefield> parameter is missing "])
  | some loaded =>
    match _sdf.shader with
    | none => some (s, [Event.ignerr "<shader> parameter is missing "])
    | some shaderElem =>
      let s1 := { s with wavefield := Wavefield.Load s.wavefield loaded }
      let withPath : Option WaveVisualPrivate :=
        if s1.modelPath = "" then
          match _ecm.SourceFilePath with
          | none => none
          | some path => some { s1 with modelPath := path }
        else some s1
      match withPath with
      | none => none
      | some s2 =>
        let (s3, e3) : WaveVisualPrivate × List Event :=
          match shaderElem.vertex, shaderElem.fragment with
          | some vertexElem, some fragmentElem =>
            ({ s2 with
                vertexShaderUri := files.findFile (files.asFullPath vertexElem s2.modelPath)
                fragmentShaderUri := files.findFile (files.asFullPath fragmentElem s2.modelPath) },
              [])
          | _, _ => (s2, [Event.ignerr "<shader> must have <vertex> and <fragment> sdf elements"])
        match _ecm.Name with
        | none => none
        | some name =>
          some ({ s3 with entity := _entity, visualName := name, connection := true },
            e3 ++ [Event.Connect])

/-- `WaveVisual::PreUpdate` (lines 165-172): under the lock, store the
simulation time of the step. -/
def WaveVisual.PreUpdate (s : WaveVisualPrivate) (simTime : Int) :
    WaveVisualPrivate × List Event :=
  ({ s with currentSimTime := simTime }, [Event.lock, Event.writeSimTime simTime, Event.unlock])

/-- Lines 181-182: fetch the scene when none is cached. -/
def OnUpdate.acquireScene (s : WaveVisualPrivate) (r : Frame) : WaveVisualPrivate × List Event :=
  match s.scene with
  | some _ => (s, [])
  | none => ({ s with scene := r.sceneFromFirstRenderEngine }, [Event.sceneFromFirstRenderEngine])

/-- Lines 187-214: look the visual up when none is cached. `none` only if the
loop budget ran out. -/
def OnUpdate.resolveVisual (s : WaveVisualPrivate) (r : Frame) :
    Option (WaveVisualPrivate × List Event) :=
  match s.visual with
  | some _ => some (s, [])
  | none =>
    match findVisual s.entity r.RootVisual with
    | none => none
    | some found => some ({ s with visual := found }, [Event.RootVisual])

/-- Lines 220-228: create and attach the material when none is cached. -/
def OnUpdate.bindMaterial (s : WaveVisualPrivate) (r : Frame) (visual : Node) :
    WaveVisualPrivate × List Event :=
  match s.material with
  | some _ => (s, [])
  | none =>
    ({ s with material := r.Material },
      [Event.CreateMaterial r.CreateMaterial,
       Event.SetVertexShader r.CreateMaterial s.vertexShaderUri,
       Event.SetFragmentShader r.CreateMaterial s.fragmentShaderUri,
       Event.SetMaterial (Node.ptr visual) r.CreateMaterial,
       Event.DestroyMaterial r.CreateMaterial,
       Event.Material (Node.ptr visual)])

/-- The reads `v[0]`, `v[1]`, `v[2]` of a `std::vector`; an index beyond the
end has no defined result (`none`). -/
def firstThree {α : Type} (v : List α) : Option (α × α × α) :=
  match v[0]?, v[1]?, v[2]? with
  | some x0, some x1, some x2 => some (x0, x1, x2)
  | _, _, _ => none

/-- Lines 235-301: the vertex-stage writes of the one-time block on material
`m`, given the values read from the wavefield. -/
def OnUpdate.vertexWrites (m : MaterialPtr) (number : Nat) (amplitudeV wavenumberV omegaV : ℚ × ℚ × ℚ)
    (directions : (ℚ × ℚ) × (ℚ × ℚ) × (ℚ × ℚ)) (steepnessV : ℚ × ℚ × ℚ) (tau : ℚ) :
    List Event :=
  [Event.VertexShaderParams m,
   Event.assignInt m .vertex "Nwaves" (static_cast_int number),
   Event.assignFloat m .vertex "rescale" (toFloat (1 / 2)),
   Event.InitializeBuffer m .vertex "bumpScale" 2,
   Event.UpdateBuffer m .vertex "bumpScale" [toFloat 25, toFloat 25],
   Event.InitializeBuffer m .vertex "bumpSpeed" 2,
   Event.UpdateBuffer m .vertex "bumpSpeed" [toFloat (1 / 100), toFloat (1 / 100)],
   Event.InitializeBuffer m .vertex "amplitude" 3,
   Event.UpdateBuffer m .vertex "amplitude"
     [toFloat amplitudeV.1, toFloat amplitudeV.2.1, toFloat amplitudeV.2.2],
   Event.InitializeBuffer m .vertex "wavenumber" 3,
   Event.UpdateBuffer m .vertex "wavenumber"
     [toFloat wavenumberV.1, toFloat wavenumberV.2.1, toFloat wavenumberV.2.2],
   Event.InitializeBuffer m .vertex "omega" 3,
   Event.UpdateBuffer m .vertex "omega" [toFloat omegaV.1, toFloat omegaV.2.1, toFloat omegaV.2.2],
   Event.InitializeBuffer m .vertex "dir0" 2,
   Event.UpdateBuffer m .vertex "dir0" [toFloat directions.1.1, toFloat directions.1.2],
   Event.InitializeBuffer m .vertex "dir1" 2,
   Event.UpdateBuffer m .vertex "dir1" [toFloat directions.2.1.1, toFloat directions.2.1.2],
   Event.InitializeBuffer m .vertex "dir2" 2,
   Event.UpdateBuffer m .vertex "dir2" [toFloat directions.2.2.1, toFloat directions.2.2.2],
   Event.InitializeBuffer m .vertex "steepness" 3,
   Event.UpdateBuffer m .vertex "steepness"
     [toFloat steepnessV.1, toFloat steepnessV.2.1, toFloat steepnessV.2.2],
   Event.assignFloat m .vertex "tau" (toFloat tau),
   Event.assignInt m .vertex "camera_position_object_space" 1]

/-- Lines 303-329: the fragment-stage writes of the one-time block. -/
def OnUpdate.fragmentWrites (m : MaterialPtr) (modelPath : String) (files : Files) : List Event :=
  [Event.FragmentShaderParams m,
   Event.assignFloat m .fragment "hdrMultiplier" (toFloat (4 / 10)),
   Event.assignFloat m .fragment "fresnelPower" (toFloat 5),
   Event.InitializeBuffer m .fragment "shallowColor" 4,
   Event.UpdateBuffer m .fragment "shallowColor"
     [toFloat 0, toFloat (1 / 10), toFloat (3 / 10), toFloat 1],
   Event.InitializeBuffer m .fragment "deepColor" 4,
   Event.UpdateBuffer m .fragment "deepColor"
     [toFloat 0, toFloat (5 / 100), toFloat (2 / 10), toFloat 1],
   Event.SetTexture m .fragment "bumpMap"
     (files.findFile (files.asFullPath "materials/textures/wave_normals.dds" modelPath))
     ParamType.PARAM_TEXTURE 0,
   Event.SetTexture m .fragment "cubeMap"
     (files.findFile (files.asFullPath "materials/textures/skybox_lowres.dds" modelPath))
     ParamType.PARAM_TEXTURE_CUBE 1]

/-- Lines 235-329: the writes of the one-time block on material `m`. The block
reads the entries 0, 1 and 2 of each wavefield vector; when one of these reads
is past the end of its vector the block has no defined result (`none`). -/
def OnUpdate.shaderParams (w : Wavefield) (modelPath : String) (files : Files) (m : MaterialPtr) :
    Option (List Event) :=
  match firstThree w.Amplitude_V, firstThree w.Wavenumber_V, firstThree w.AngularFrequency_V,
    firstThree w.Direction_V, firstThree w.Steepness_V with
  | some amplitudeV, some wavenumberV, some omegaV, some directions, some steepnessV =>
    some (OnUpdate.vertexWrites m w.Number amplitudeV wavenumberV omegaV directions steepnessV w.Tau
      ++ OnUpdate.fragmentWrites m modelPath files)
  | _, _, _, _, _ => none

/-- Lines 233-331: run the one-time block unless `paramsSet` is already true. -/
def OnUpdate.setParams (s : WaveVisualPrivate) (r : Frame) (m : MaterialPtr) :
    Option (WaveVisualPrivate × List Event) :=
  if s.paramsSet then some (s, [Event.readParamsSet])
  else
    match OnUpdate.shaderParams s.wavefield s.modelPath r.files m with
    | none => none
    | some writes =>
      some ({ s with paramsSet := true }, Event.readParamsSet :: writes ++ [Event.writeParamsSet])

/-- Lines 333-338: write the simulation time in seconds to the slot `t`. -/
def OnUpdate.updateTime (s : WaveVisualPrivate) (m : MaterialPtr) : List Event :=
  [Event.readSimTime, Event.VertexShaderParams m,
   Event.assignFloat m .vertex "t" (secondsFloat s.currentSimTime)]

/-- `WaveVisualPrivate::OnUpdate` (lines 175-339). The lock is taken on entry
and released at whichever `return` ends the call. The result is `none` when the
call has no defined result (a wavefield vector read past its end). -/
def WaveVisualPrivate.OnUpdate (s : WaveVisualPrivate) (r : Frame) :
    Option (WaveVisualPrivate × List Event) :=
  if s.visualName = "" then some (s, [Event.lock, Event.unlock])
  else
    match OnUpdate.acquireScene s r with
    | (s1, e1) =>
      match s1.scene with
      | none => some (s1, Event.lock :: e1 ++ [Event.unlock])
      | some _ =>
        match OnUpdate.resolveVisual s1 r with
        | none => none
        | some (s2, e2) =>
          match s2.visual with
          | none => some (s2, Event.lock :: (e1 ++ e2) ++ [Event.unlock])
          | some visual =>
            match OnUpdate.bindMaterial s2 r visual with
            | (s3, e3) =>
              match s3.material with
              | none => some (s3, Event.lock :: (e1 ++ e2 ++ e3) ++ [Event.unlock])
              | some m =>
                match OnUpdate.setParams s3 r m with
                | none => none
                | some (s4, e4) =>
                  some (s4, Event.lock :: (e1 ++ e2 ++ e3 ++ e4 ++ OnUpdate.updateTime s4 m)
                    ++ [Event.unlock])

/-- One call of a hook: the simulation step with its time, or a render frame
with the renderer's answers. -/
inductive Hook where
  | PreUpdate (simTime : Int)
  | OnUpdate (r : Frame)

/-- Run one hook. -/
def Hook.step (s : WaveVisualPrivate) : Hook → Option (WaveVisualPrivate × List Event)
  | .PreUpdate simTime => some (WaveVisual.PreUpdate s simTime)
  | .OnUpdate r => WaveVisualPrivate.OnUpdate s r

/-- Run a sequence of hooks, collecting the events. -/
def Hook.run (s : WaveVisualPrivate) : List Hook → Option (WaveVisualPrivate × List Event)
  | [] => some (s, [])
  | h :: hs =>
    match Hook.step s h with
    | none => none
    | some (s1, e1) =>
      match Hook.run s1 hs with
      | none => none
      | some (s2, e2) => some (s2, e1 ++ e2)

/-- The state of the frame updater read off the fields: 0 unresolved, 1 material
unbound, 2 parameters unset, 3 steady. -/
def WaveVisualPrivate.stage (s : WaveVisualPrivate) : Nat :=
  match s.visual with
  | none => 0
  | some _ =>
    match s.material with
    | none => 1
    | some _ => if s.paramsSet then 3 else 2

/-- The simulation time of the last `PreUpdate` of a hook sequence, `dflt` when
there is none. -/
def lastSimTime (dflt : Int) : List Hook → Int
  | [] => dflt
  | .PreUpdate simTime :: hs => lastSimTime simTime hs
  | .OnUpdate _ :: hs => lastSimTime dflt hs

/-- The nodes of a forest level by level, for `d` levels: the forest itself,
then the children of its nodes, and so on. -/
def levelOrder : Nat → List Node → List Node
  | 0, _ => []
  | d + 1, q => q ++ levelOrder d (q.flatMap Node.children)

/-- The scene held after lines 181-182: the cached one, else the engine's. -/
def OnUpdate.sceneAfter (s : WaveVisualPrivate) (r : Frame) : Option ScenePtr :=
  match s.scene with
  | some sc => some sc
  | none => r.sceneFromFirstRenderEngine

/-- The visual held after lines 187-214, in terms of the breadth-first order:
the cached one, else the first node in breadth-first order passing the tag
test, cast to a visual. -/
def OnUpdate.visualAfter (s : WaveVisualPrivate) (r : Frame) : Option Node :=
  match s.visual with
  | some v => some v
  | none =>
    ((breadthFirstOrder r.RootVisual).find? (matchesEntity s.entity)).bind
      dynamic_pointer_cast_Visual

/-- The material held after lines 220-228: the cached one, else the one the
visual reports after attachment. -/
def OnUpdate.materialAfter (s : WaveVisualPrivate) (r : Frame) : Option MaterialPtr :=
  match s.material with
  | some m => some m
  | none => r.Material

/-- The fields of a component agree with how they are filled: a visual is
held only with a visual name and a scene, a material only with a visual, and
`paramsSet` is true exactly when a material is held. -/
def WaveVisualPrivate.consistent (s : WaveVisualPrivate) : Prop :=
  (s.visual.isSome → s.visualName ≠ "" ∧ s.scene.isSome) ∧
    (s.material.isSome → s.visual.isSome) ∧ (s.paramsSet = true ↔ s.material.isSome)

/-- The lifetime of one component: construction, one call of `Configure`, then
a sequence of hook calls. The result is the final state with all events. -/
def WaveVisual.lifetime (w0 : Wavefield) (_entity : Entity) (_sdf : SdfElement)
    (_ecm : EntityComponentManager) (files : Files) (hooks : List Hook) :
    Option (WaveVisualPrivate × List Event) :=
  match WaveVisual.Configure (WaveVisualPrivate.new w0) _entity _sdf _ecm files with
  | none => none
  | some (s0, e0) =>
    match Hook.run s0 hooks with
    | none => none
    | some (s, ev) => some (s, e0 ++ ev)

/-- Every render frame of the hook sequence satisfies `p`. -/
def Hook.allFrames (p : Frame → Prop) : List Hook → Prop
  | [] => True
  | .PreUpdate _ :: hs => Hook.allFrames p hs
  | .OnUpdate r :: hs => p r ∧ Hook.allFrames p hs

/-- The event is an access to a shader-parameter set of a material. -/
def Event.isParamWrite : Event → Bool
  | .VertexShaderParams _ | .FragmentShaderParams _ => true
  | .assignInt _ _ _ _ | .assignFloat _ _ _ _ => true
  | .InitializeBuffer _ _ _ _ | .UpdateBuffer _ _ _ _ | .SetTexture _ _ _ _ _ _ => true
  | _ => false

/-- The event is the store to `paramsSet`. -/
def Event.isWriteParamsSet : Event → Bool
  | .writeParamsSet => true
  | _ => false

/-- The slots written by the one-time block: thirteen of the vertex stage and
six of the fragment stage. -/
def staticSlots : List (ShaderStage × String) :=
  [(.vertex, "Nwaves"), (.vertex, "rescale"), (.vertex, "bumpScale"), (.vertex, "bumpSpeed"),
   (.vertex, "amplitude"), (.vertex, "wavenumber"), (.vertex, "omega"), (.vertex, "dir0"),
   (.vertex, "dir1"), (.vertex, "dir2"), (.vertex, "steepness"), (.vertex, "tau"),
   (.vertex, "camera_position_object_space"),
   (.fragment, "hdrMultiplier"), (.fragment, "fresnelPower"), (.fragment, "shallowColor"),
   (.fragment, "deepColor"), (.fragment, "bumpMap"), (.fragment, "cubeMap")]

/-- The event is an operation on the mutex. -/
def Event.isLock : Event → Bool
  | .lock | .unlock => true
  | _ => false

/-! ## Sample inputs -/

/-- File services that return the given relative path unchanged. -/
def exFiles : Files := ⟨fun uri _ => uri, fun file => file⟩

/-- A wavefield with three wave components. -/
def exWavefield : Wavefield :=
  ⟨3, [1, 2, 3], [4, 5, 6], [7, 8, 9], [(1, 0), (0, 1), (1, 1)], [1 / 2, 1 / 3, 1 / 4], 2⟩

/-- A wavefield with five wave components. -/
def exWavefield5 : Wavefield :=
  ⟨5, [1, 2, 3, 10, 11], [4, 5, 6, 12, 13], [7, 8, 9, 14, 15],
    [(1, 0), (0, 1), (1, 1), (2, 0), (0, 2)], [1 / 2, 1 / 3, 1 / 4, 1 / 5, 1 / 6], 2⟩

/-- A second five-component wavefield: equal to `exWavefield5` on the entries 0,
1 and 2 of every vector, different on the entries 3 and 4. -/
def exWavefield5b : Wavefield :=
  ⟨5, [1, 2, 3, 20, 21], [4, 5, 6, 22, 23], [7, 8, 9, 24, 25],
    [(1, 0), (0, 1), (1, 1), (3, 0), (0, 3)], [1 / 2, 1 / 3, 1 / 4, 1 / 7, 1 / 8], 2⟩

/-- A wavefield with two wave components only. -/
def exWavefield2 : Wavefield :=
  ⟨2, [1, 2], [4, 5], [7, 8], [(1, 0), (0, 1)], [1 / 2, 1 / 3], 2⟩

/-- A complete plugin descriptor. -/
def exSdf : SdfElement :=
  ⟨some exWavefield, some ⟨some "materials/waves_vs.glsl", some "materials/waves_fs.glsl"⟩⟩

/-- A plugin descriptor without the `<shader>` block. -/
def exSdfNoShader : SdfElement := ⟨some exWavefield, none⟩

/-- An entity-component manager that knows the model path and the entity name. -/
def exEcm : EntityComponentManager := ⟨some "/models/waves/model.sdf", some "waves_visual"⟩

/-- A visual tagged with entity 7. -/
def exWaterVisual : Node := .mk 2 true (some (.int 7)) []

/-- A node that is not a visual (a light, say), tagged with entity 7. -/
def exLight : Node := .mk 1 false (some (.int 7)) []

/-- A scene whose only tagged node is the visual of entity 7. -/
def exTree : Node := .mk 0 true none [exWaterVisual]

/-- A scene in which a non-visual node tagged 7 precedes the visual tagged 7. -/
def exTreeShadowed : Node := .mk 0 true none [exLight, exWaterVisual]

/-- A scene whose only node tagged 7 is not a visual. -/
def exTreeLight : Node := .mk 0 true none [exLight]

/-- A scene whose root visual is tagged 5. -/
def exTreeFive : Node := .mk 0 true (some (.int 5)) []

/-- A scene without any tagged node. -/
def exTreeBare : Node := .mk 0 true none []

/-- A render frame on `exTree` with a renderer that reports material 11 after
the attachment of material 10. -/
def exFrame : Frame := ⟨some 1, exTree, 10, some 11, exFiles⟩

/-- As `exFrame`, but the visual reports no material after the attachment. -/
def exFrameNoMaterial : Frame := ⟨some 1, exTree, 10, none, exFiles⟩

/-- As `exFrame`, on the scene `exTreeShadowed`. -/
def exFrameShadowed : Frame := ⟨some 1, exTreeShadowed, 10, some 11, exFiles⟩

/-- As `exFrame`, on the scene without tagged nodes. -/
def exFrameBare : Frame := ⟨some 1, exTreeBare, 10, some 11, exFiles⟩

/-- The component after `Configure` with `exSdf` for entity 7. -/
def exConfigured : WaveVisualPrivate where
  vertexShaderUri := "materials/waves_vs.glsl"
  fragmentShaderUri := "materials/waves_fs.glsl"
  connection := true
  visualName := "waves_visual"
  visual := none
  material := none
  scene := none
  entity := 7
  currentSimTime := 0
  modelPath := "/models/waves/model.sdf"
  wavefield := exWavefield
  paramsSet := false

/-- The component `exConfigured` once steady on `exFrame`, at simulation time
`simTime`. -/
def exSteady (simTime : Int) : WaveVisualPrivate :=
  { exConfigured with
    scene := some 1, visual := some exWaterVisual, material := some 11, paramsSet := true,
    currentSimTime := simTime }

/-- The events of the first render frame of `exConfigured` on `exFrame` at
simulation time `simTime`. -/
def exFirstFrameEvents (simTime : Int) : List Event :=
  [Event.lock, Event.sceneFromFirstRenderEngine, Event.RootVisual,
    Event.CreateMaterial 10, Event.SetVertexShader 10 "materials/waves_vs.glsl",
    Event.SetFragmentShader 10 "materials/waves_fs.glsl", Event.SetMaterial 2 10,
    Event.DestroyMaterial 10, Event.Material 2, Event.readParamsSet]
  ++ OnUpdate.vertexWrites 11 3 (1, 2, 3) (4, 5, 6) (7, 8, 9) ((1, 0), (0, 1), (1, 1))
      (1 / 2, 1 / 3, 1 / 4) 2
  ++ OnUpdate.fragmentWrites 11 "/models/waves/model.sdf" exFiles
  ++ [Event.writeParamsSet, Event.readSimTime, Event.VertexShaderParams 11,
    Event.assignFloat 11 .vertex "t" (secondsFloat simTime), Event.unlock]

/-- The events of a render frame of a steady component with material `m`. -/
def steadyFrameEvents (m : MaterialPtr) (simTime : Int) : List Event :=
  [Event.lock, Event.readParamsSet, Event.readSimTime, Event.VertexShaderParams m,
    Event.assignFloat m .vertex "t" (secondsFloat simTime), Event.unlock]

/-- As `exFrame`, on the scene whose only node tagged 7 is not a visual. -/
def exFrameLight : Frame := ⟨some 1, exTreeLight, 10, some 11, exFiles⟩

/-- As `exFrame`, on the scene whose root visual is tagged 5. -/
def exFrameFive : Frame := ⟨some 1, exTreeFive, 10, some 11, exFiles⟩

/-! ## Auxiliary facts about the scene graph -/

theorem Node.size_eq (n : Node) : Node.size n = 1 + Node.sizeList (Node.children n) := by
  cases n; simp [Node.size, Node.children]

theorem Node.height_eq (n : Node) : Node.height n = 1 + Node.heightList (Node.children n) := by
  cases n; simp [Node.height, Node.children]

theorem Node.sizeList_append (a b : List Node) :
    Node.sizeList (a ++ b) = Node.sizeList a + Node.sizeList b := by
  induction a with
  | nil => simp [Node.sizeList]
  | cons x xs ih => simp [Node.sizeList, ih]; omega

theorem Node.heightList_append (a b : List Node) :
    Node.heightList (a ++ b) = max (Node.heightList a) (Node.heightList b) := by
  induction a with
  | nil => simp [Node.heightList]
  | cons x xs ih => simp [Node.heightList, ih, max_assoc]

theorem Node.sizeList_children (q : List Node) :
    Node.sizeList (q.flatMap Node.children) + q.length = Node.sizeList q := by
  induction q with
  | nil => simp [Node.sizeList]
  | cons x xs ih =>
    simp only [List.flatMap_cons, Node.sizeList_append, Node.sizeList, List.length_cons,
      Node.size_eq x]
    omega

theorem Node.heightList_children (q : List Node) (d : Nat) (h : Node.heightList q ≤ d + 1) :
    Node.heightList (q.flatMap Node.children) ≤ d := by
  induction q with
  | nil => simp [Node.heightList]
  | cons x xs ih =>
    simp only [List.flatMap_cons, Node.heightList_append, Node.heightList, Node.height_eq x] at h ⊢
    have h1 := le_of_max_le_left h
    have h2 := le_of_max_le_right h
    exact max_le (by omega) (ih h2)

theorem Node.heightList_eq_zero (q : List Node) (h : Node.heightList q ≤ 0) : q = [] := by
  cases q with
  | nil => rfl
  | cons x xs =>
    simp only [Node.heightList, Node.height_eq x] at h
    have := le_of_max_le_left h
    omega

theorem bfsLoop_cons (e : Entity) (fuel : Nat) (n : Node) (nodes : List Node) :
    bfsLoop e (fuel + 1) (n :: nodes)
      = if matchesEntity e n then some (dynamic_pointer_cast_Visual n)
        else bfsLoop e fuel (nodes ++ Node.children n) := rfl

theorem bfsLoop_skip (e : Entity) (q : List Node) :
    ∀ (c : List Node) (fuel : Nat), q.find? (matchesEntity e) = none →
      bfsLoop e (fuel + q.length) (q ++ c) = bfsLoop e fuel (c ++ q.flatMap Node.children) := by
  induction q with
  | nil => intro c fuel _; simp
  | cons x xs ih =>
    intro c fuel h
    rw [List.find?_cons] at h
    cases hx : matchesEntity e x with
    | true => simp [hx] at h
    | false =>
      simp only [hx] at h
      have := ih (c ++ Node.children x) fuel h
      rw [List.length_cons, ← Nat.add_assoc, List.cons_append, bfsLoop_cons, hx, if_neg (by simp),
        List.append_assoc, this, List.flatMap_cons, List.append_assoc]

theorem bfsLoop_hit (e : Entity) (q : List Node) :
    ∀ (c : List Node) (fuel : Nat) (n : Node), q.find? (matchesEntity e) = some n →
      bfsLoop e (fuel + q.length) (q ++ c) = some (dynamic_pointer_cast_Visual n) := by
  induction q with
  | nil => intro c fuel n h; simp at h
  | cons x xs ih =>
    intro c fuel n h
    rw [List.find?_cons] at h
    cases hx : matchesEntity e x with
    | true =>
      simp only [hx, Option.some.injEq] at h
      subst h
      rw [List.length_cons, ← Nat.add_assoc, List.cons_append, bfsLoop_cons, hx, if_pos rfl]
    | false =>
      simp only [hx] at h
      have := ih (c ++ Node.children x) fuel n h
      rw [List.length_cons, ← Nat.add_assoc, List.cons_append, bfsLoop_cons, hx, if_neg (by simp),
        List.append_assoc, this]

theorem Node.length_le_sizeList (q : List Node) : q.length ≤ Node.sizeList q := by
  have := Node.sizeList_children q
  omega

theorem bfsLoop_levelOrder (e : Entity) (d : Nat) :
    ∀ (q : List Node) (fuel : Nat), Node.heightList q ≤ d → Node.sizeList q < fuel →
      bfsLoop e fuel q
        = some (((levelOrder d q).find? (matchesEntity e)).bind dynamic_pointer_cast_Visual) := by
  induction d with
  | zero =>
    intro q fuel hh hs
    have := Node.heightList_eq_zero q hh
    subst this
    obtain ⟨f, rfl⟩ : ∃ f, fuel = f + 1 := ⟨fuel - 1, by omega⟩
    simp [bfsLoop, levelOrder]
  | succ d ih =>
    intro q fuel hh hs
    have hlen := Node.length_le_sizeList q
    have hsz := Node.sizeList_children q
    obtain ⟨f, rfl⟩ : ∃ f, fuel = f + q.length := ⟨fuel - q.length, by omega⟩
    cases hq : q.find? (matchesEntity e) with
    | none =>
      have h1 := bfsLoop_skip e q [] f hq
      simp only [List.append_nil, List.nil_append] at h1
      rw [h1, ih _ f (Node.heightList_children q d hh) (by omega)]
      simp [levelOrder, List.find?_append, hq]
    | some n =>
      have h1 := bfsLoop_hit e q [] f n hq
      simp only [List.append_nil] at h1
      rw [h1]
      simp [levelOrder, List.find?_append, hq]

theorem levelOrder_eq (d : Nat) :
    ∀ q : List Node,
      levelOrder d q = (List.range d).flatMap (fun k => q.flatMap (Node.atDepth k)) := by
  induction d with
  | zero => intro q; simp [levelOrder]
  | succ d ih =>
    intro q
    have h0 : q.flatMap (Node.atDepth 0) = q := by
      induction q with
      | nil => rfl
      | cons x xs ihx => simp [List.flatMap_cons, Node.atDepth, ihx]
    simp only [levelOrder, ih, List.range_succ_eq_map, List.flatMap_cons, List.flatMap_map, h0,
      List.flatMap_assoc]
    rfl

theorem findVisual_eq (e : Entity) (root : Node) :
    findVisual e root
      = some (((breadthFirstOrder root).find? (matchesEntity e)).bind dynamic_pointer_cast_Visual) := by
  have h := bfsLoop_levelOrder e (Node.height root) [root] (Node.size root + 1)
    (by simp [Node.heightList]) (by simp [Node.sizeList])
  rw [findVisual, h, levelOrder_eq]
  simp [breadthFirstOrder]

/-! ## The render-frame hook in closed form -/

theorem OnUpdate_eq (s : WaveVisualPrivate) (r : Frame) :
    WaveVisualPrivate.OnUpdate s r =
      if s.visualName = "" then some (s, [Event.lock, Event.unlock])
      else
        match OnUpdate.sceneAfter s r with
        | none =>
          some ({ s with scene := none },
            Event.lock :: (OnUpdate.acquireScene s r).2 ++ [Event.unlock])
        | some sc =>
          match OnUpdate.visualAfter s r with
          | none =>
            some ({ s with scene := some sc, visual := none },
              Event.lock :: ((OnUpdate.acquireScene s r).2 ++ (if s.visual.isSome then [] else [Event.RootVisual])) ++ [Event.unlock])
          | some v =>
            match OnUpdate.materialAfter s r with
            | none =>
              some ({ s with scene := some sc, visual := some v, material := none },
                Event.lock :: ((OnUpdate.acquireScene s r).2 ++ (if s.visual.isSome then [] else [Event.RootVisual])
                  ++ (OnUpdate.bindMaterial s r v).2) ++ [Event.unlock])
            | some m =>
              if s.paramsSet then
                some ({ s with scene := some sc, visual := some v, material := some m },
                  Event.lock :: ((OnUpdate.acquireScene s r).2 ++ (if s.visual.isSome then [] else [Event.RootVisual])
                    ++ (OnUpdate.bindMaterial s r v).2 ++ [Event.readParamsSet]
                    ++ OnUpdate.updateTime s m) ++ [Event.unlock])
              else
                match OnUpdate.shaderParams s.wavefield s.modelPath r.files m with
                | none => none
                | some writes =>
                  some ({ s with scene := some sc, visual := some v, material := some m,
                                 paramsSet := true },
                    Event.lock :: ((OnUpdate.acquireScene s r).2 ++ (if s.visual.isSome then [] else [Event.RootVisual])
                      ++ (OnUpdate.bindMaterial s r v).2
                      ++ (Event.readParamsSet :: writes ++ [Event.writeParamsSet])
                      ++ OnUpdate.updateTime s m) ++ [Event.unlock]) := by
  rcases s with ⟨vs, fs, conn, name, visual, material, scene, entity, t, mp, w, ps⟩
  rcases r with ⟨rscene, root, cm, rmat, files⟩
  simp only [WaveVisualPrivate.OnUpdate, OnUpdate.acquireScene, OnUpdate.resolveVisual,
    OnUpdate.bindMaterial, OnUpdate.setParams, findVisual_eq, OnUpdate.sceneAfter,
    OnUpdate.visualAfter, OnUpdate.materialAfter, OnUpdate.updateTime]
  by_cases hn : name = "" <;> rcases scene with _ | sc <;> rcases rscene with _ | rsc <;>
    rcases visual with _ | v <;> rcases material with _ | m <;> rcases rmat with _ | rm <;>
    rcases ps with _ | _ <;>
    simp [hn]
  all_goals
    cases hfv : (List.find? (matchesEntity entity) (breadthFirstOrder root)).bind
      dynamic_pointer_cast_Visual <;> try simp
  all_goals
    first
    | (cases hsp : OnUpdate.shaderParams w mp files m <;> simp)
    | (cases hsp : OnUpdate.shaderParams w mp files rm <;> simp)

theorem acquireScene_events (s : WaveVisualPrivate) (r : Frame) :
    (OnUpdate.acquireScene s r).2
      = if s.scene.isSome then [] else [Event.sceneFromFirstRenderEngine] := by
  unfold OnUpdate.acquireScene
  split <;> simp_all

theorem bindMaterial_events (s : WaveVisualPrivate) (r : Frame) (v : Node) :
    (OnUpdate.bindMaterial s r v).2
      = if s.material.isSome then []
        else [Event.CreateMaterial r.CreateMaterial,
          Event.SetVertexShader r.CreateMaterial s.vertexShaderUri,
          Event.SetFragmentShader r.CreateMaterial s.fragmentShaderUri,
          Event.SetMaterial (Node.ptr v) r.CreateMaterial,
          Event.DestroyMaterial r.CreateMaterial,
          Event.Material (Node.ptr v)] := by
  unfold OnUpdate.bindMaterial
  split <;> simp_all

theorem sceneAfter_of_some (s : WaveVisualPrivate) (r : Frame) (sc : ScenePtr)
    (h : s.scene = some sc) : OnUpdate.sceneAfter s r = some sc := by
  simp [OnUpdate.sceneAfter, h]

theorem visualAfter_of_some (s : WaveVisualPrivate) (r : Frame) (v : Node)
    (h : s.visual = some v) : OnUpdate.visualAfter s r = some v := by
  simp [OnUpdate.visualAfter, h]

theorem materialAfter_of_some (s : WaveVisualPrivate) (r : Frame) (m : MaterialPtr)
    (h : s.material = some m) : OnUpdate.materialAfter s r = some m := by
  simp [OnUpdate.materialAfter, h]

theorem sceneAfter_of_none (s : WaveVisualPrivate) (r : Frame)
    (h : s.scene = none) : OnUpdate.sceneAfter s r = r.sceneFromFirstRenderEngine := by
  simp [OnUpdate.sceneAfter, h]

theorem visualAfter_of_none (s : WaveVisualPrivate) (r : Frame) (h : s.visual = none) :
    OnUpdate.visualAfter s r
      = ((breadthFirstOrder r.RootVisual).find? (matchesEntity s.entity)).bind
          dynamic_pointer_cast_Visual := by
  simp [OnUpdate.visualAfter, h]

theorem materialAfter_of_none (s : WaveVisualPrivate) (r : Frame)
    (h : s.material = none) : OnUpdate.materialAfter s r = r.Material := by
  simp [OnUpdate.materialAfter, h]

theorem firstThree_eq_some {α : Type} (v : List α) (h : 3 ≤ v.length) :
    ∃ x0 x1 x2, v[0]? = some x0 ∧ v[1]? = some x1 ∧ v[2]? = some x2 ∧
      firstThree v = some (x0, x1, x2) := by
  match v, h with
  | x0 :: x1 :: x2 :: rest, _ => exact ⟨x0, x1, x2, by simp [firstThree]⟩

theorem firstThree_isSome {α : Type} (v : List α) (x : α × α × α) (h : firstThree v = some x) :
    3 ≤ v.length := by
  match v, h with
  | [], h => simp [firstThree] at h
  | [_], h => simp [firstThree] at h
  | [_, _], h => simp [firstThree] at h
  | _ :: _ :: _ :: rest, _ => simp

theorem firstThree_take {α : Type} (v v' : List α) (h : v.take 3 = v'.take 3) :
    firstThree v = firstThree v' := by
  have h0 : v[0]? = v'[0]? := by
    have := congrArg (fun l => l[0]?) h
    simpa [List.getElem?_take] using this
  have h1 : v[1]? = v'[1]? := by
    have := congrArg (fun l => l[1]?) h
    simpa [List.getElem?_take] using this
  have h2 : v[2]? = v'[2]? := by
    have := congrArg (fun l => l[2]?) h
    simpa [List.getElem?_take] using this
  simp [firstThree, h0, h1, h2]

theorem shaderParams_eq_some (w : Wavefield) (mp : String) (files : Files) (m : MaterialPtr)
    (writes : List Event) (h : OnUpdate.shaderParams w mp files m = some writes) :
    w.hasThreeWaves ∧ ∃ a k o d st,
      firstThree w.Amplitude_V = some a ∧ firstThree w.Wavenumber_V = some k ∧
      firstThree w.AngularFrequency_V = some o ∧ firstThree w.Direction_V = some d ∧
      firstThree w.Steepness_V = some st ∧
      writes = OnUpdate.vertexWrites m w.Number a k o d st w.Tau
        ++ OnUpdate.fragmentWrites m mp files := by
  unfold OnUpdate.shaderParams at h
  split at h
  · rename_i a k o d st ha hk ho hd hst
    simp at h
    exact ⟨⟨firstThree_isSome _ _ ha, firstThree_isSome _ _ hk, firstThree_isSome _ _ ho,
      firstThree_isSome _ _ hd, firstThree_isSome _ _ hst⟩, a, k, o, d, st, ha, hk, ho, hd, hst, h.symm⟩
  · simp at h

theorem shaderParams_isSome (w : Wavefield) (mp : String) (files : Files) (m : MaterialPtr)
    (h : w.hasThreeWaves) : ∃ writes, OnUpdate.shaderParams w mp files m = some writes := by
  obtain ⟨ha, hk, ho, hd, hst⟩ := h
  obtain ⟨a0, a1, a2, -, -, -, ha⟩ := firstThree_eq_some _ ha
  obtain ⟨k0, k1, k2, -, -, -, hk⟩ := firstThree_eq_some _ hk
  obtain ⟨o0, o1, o2, -, -, -, ho⟩ := firstThree_eq_some _ ho
  obtain ⟨d0, d1, d2, -, -, -, hd⟩ := firstThree_eq_some _ hd
  obtain ⟨s0, s1, s2, -, -, -, hst⟩ := firstThree_eq_some _ hst
  refine ⟨OnUpdate.vertexWrites m w.Number (a0, a1, a2) (k0, k1, k2) (o0, o1, o2) (d0, d1, d2)
    (s0, s1, s2) w.Tau ++ OnUpdate.fragmentWrites m mp files, ?_⟩
  simp [OnUpdate.shaderParams, ha, hk, ho, hd, hst]

theorem shaderParams_all_paramWrite (w : Wavefield) (mp : String) (files : Files)
    (m : MaterialPtr) (writes : List Event)
    (h : OnUpdate.shaderParams w mp files m = some writes) :
    ∀ e ∈ writes, Event.isParamWrite e = true := by
  obtain ⟨-, a, k, o, d, st, -, -, -, -, -, rfl⟩ := shaderParams_eq_some w mp files m writes h
  intro e he
  simp only [OnUpdate.vertexWrites, OnUpdate.fragmentWrites, List.mem_append, List.mem_cons,
    List.mem_singleton, List.not_mem_nil, or_false] at he
  rcases he with he | he <;> (repeat' rcases he with rfl | he) <;> rfl

theorem shaderParams_count_static (w : Wavefield) (mp : String) (files : Files)
    (m : MaterialPtr) (writes : List Event)
    (h : OnUpdate.shaderParams w mp files m = some writes) :
    ∀ slot ∈ staticSlots, writes.countP (Event.assigns slot.1 slot.2) = 1 := by
  obtain ⟨-, a, k, o, d, st, -, -, -, -, -, rfl⟩ := shaderParams_eq_some w mp files m writes h
  intro slot hslot
  simp only [staticSlots, List.mem_cons, List.mem_singleton, List.not_mem_nil, or_false] at hslot
  rcases hslot with h | h | h | h | h | h | h | h | h | h | h | h | h | h | h | h | h | h | h <;>
    subst h <;> simp [OnUpdate.vertexWrites, OnUpdate.fragmentWrites, Event.assigns, List.countP_cons]

theorem shaderParams_count_t (w : Wavefield) (mp : String) (files : Files)
    (m : MaterialPtr) (writes : List Event)
    (h : OnUpdate.shaderParams w mp files m = some writes) :
    writes.countP (Event.assigns .vertex "t") = 0 := by
  obtain ⟨-, a, k, o, d, st, -, -, -, -, -, rfl⟩ := shaderParams_eq_some w mp files m writes h
  simp [OnUpdate.vertexWrites, OnUpdate.fragmentWrites, Event.assigns, List.countP_cons]

theorem OnUpdate_monotone (s s' : WaveVisualPrivate) (r : Frame) (ev : List Event)
    (h : WaveVisualPrivate.OnUpdate s r = some (s', ev)) :
    (∀ v, s.visual = some v → s'.visual = some v) ∧
      (∀ m, s.material = some m → s'.material = some m) ∧
      (s.paramsSet = true → s'.paramsSet = true) ∧
      (s.visual.isSome → Event.RootVisual ∉ ev) ∧
      (s.material.isSome → ∀ m, Event.CreateMaterial m ∉ ev) := by
  rw [OnUpdate_eq] at h
  simp only [acquireScene_events, bindMaterial_events, OnUpdate.sceneAfter, OnUpdate.visualAfter,
    OnUpdate.materialAfter, OnUpdate.updateTime] at h
  rcases hsc : s.scene with _ | sc <;> rcases hv : s.visual with _ | v <;>
    rcases hm : s.material with _ | m <;> simp only [hsc, hv, hm] at h <;>
    repeat' split at h
  all_goals try simp at h
  all_goals obtain ⟨rfl, rfl⟩ := h
  all_goals simp_all
  all_goals
    rename_i hw
    have hall := shaderParams_all_paramWrite _ _ _ _ _ hw
    first
    | exact ⟨fun hc => by simpa [Event.isParamWrite] using hall _ hc,
        fun m hc => by simpa [Event.isParamWrite] using hall _ hc⟩
    | exact fun hc => by simpa [Event.isParamWrite] using hall _ hc
    | exact fun m hc => by simpa [Event.isParamWrite] using hall _ hc

theorem forall_mem_of_all {α : Type} (p : α → Bool) (l : List α)
    (h : l.all (fun e => !p e) = true) : ∀ e ∈ l, p e = false := by
  intro e he
  simpa using (List.all_eq_true.mp h) e he

theorem shaderParams_no_lock (w : Wavefield) (mp : String) (files : Files)
    (m : MaterialPtr) (writes : List Event)
    (h : OnUpdate.shaderParams w mp files m = some writes) :
    writes.all (fun e => !Event.isLock e) = true := by
  rw [List.all_eq_true]
  intro e he
  have := shaderParams_all_paramWrite w mp files m writes h e he
  cases e <;> simp_all [Event.isLock, Event.isParamWrite]

theorem OnUpdate_shape (s s' : WaveVisualPrivate) (r : Frame) (ev : List Event)
    (h : WaveVisualPrivate.OnUpdate s r = some (s', ev)) :
    ∃ body, ev = Event.lock :: body ++ [Event.unlock] ∧
      ∀ e ∈ body, Event.isLock e = false := by
  rw [OnUpdate_eq] at h
  simp only [acquireScene_events, bindMaterial_events, OnUpdate.updateTime] at h
  repeat' split at h
  all_goals
    first
    | (simp only [Option.some.injEq, Prod.mk.injEq] at h
       obtain ⟨rfl, rfl⟩ := h
       first
       | exact ⟨[], rfl, by simp⟩
       | refine ⟨_, rfl, forall_mem_of_all _ _ ?_⟩)
    | simp at h
  all_goals
    first
    | (have hw := shaderParams_no_lock _ _ _ _ _ (by assumption)
       simp [Event.isLock] at hw ⊢
       exact hw)
    | simp [Event.isLock]

theorem OnUpdate_consistent (s s' : WaveVisualPrivate) (r : Frame) (ev : List Event)
    (h : WaveVisualPrivate.OnUpdate s r = some (s', ev)) (hc : s.consistent) :
    s'.consistent := by
  rw [OnUpdate_eq] at h
  simp only [acquireScene_events, bindMaterial_events, OnUpdate.sceneAfter, OnUpdate.visualAfter,
    OnUpdate.materialAfter, OnUpdate.updateTime] at h
  unfold WaveVisualPrivate.consistent at hc ⊢
  rcases hsc : s.scene with _ | sc <;> rcases hv : s.visual with _ | v <;>
    rcases hm : s.material with _ | m <;> simp only [hsc, hv, hm] at h hc <;>
    repeat' split at h
  all_goals try simp at h
  all_goals obtain ⟨rfl, rfl⟩ := h
  all_goals simp_all

theorem OnUpdate_isSome (s : WaveVisualPrivate) (r : Frame) (hw : s.wavefield.hasThreeWaves) :
    ∃ res, WaveVisualPrivate.OnUpdate s r = some res := by
  rw [OnUpdate_eq]
  repeat' split
  all_goals try exact ⟨_, rfl⟩
  rename_i m _ _ _ hsp
  obtain ⟨writes, hwr⟩ := shaderParams_isSome s.wavefield s.modelPath r.files m hw
  rw [hwr] at hsp
  simp at hsp

theorem OnUpdate_steady (s : WaveVisualPrivate) (r : Frame) (sc : ScenePtr) (v : Node)
    (m : MaterialPtr) (hn : s.visualName ≠ "") (hsc : s.scene = some sc)
    (hv : s.visual = some v) (hm : s.material = some m) (hp : s.paramsSet = true) :
    WaveVisualPrivate.OnUpdate s r
      = some (s, [Event.lock, Event.readParamsSet, Event.readSimTime, Event.VertexShaderParams m,
          Event.assignFloat m .vertex "t" (secondsFloat s.currentSimTime), Event.unlock]) := by
  rw [OnUpdate_eq]
  simp only [acquireScene_events, bindMaterial_events, OnUpdate.sceneAfter, OnUpdate.visualAfter,
    OnUpdate.materialAfter, OnUpdate.updateTime, hsc, hv, hm, hp, hn]
  simp
  rcases s with ⟨_, _, _, _, _, _, _, _, _, _, _, _⟩
  simp_all

theorem shaderParams_count_create (w : Wavefield) (mp : String) (files : Files)
    (m : MaterialPtr) (writes : List Event)
    (h : OnUpdate.shaderParams w mp files m = some writes) :
    writes.countP Event.isCreateMaterial = 0 := by
  rw [List.countP_eq_zero]
  intro e he
  have := shaderParams_all_paramWrite w mp files m writes h e he
  cases e <;> simp_all [Event.isCreateMaterial, Event.isParamWrite]

theorem shaderParams_count_writeParamsSet (w : Wavefield) (mp : String) (files : Files)
    (m : MaterialPtr) (writes : List Event)
    (h : OnUpdate.shaderParams w mp files m = some writes) :
    writes.countP Event.isWriteParamsSet = 0 := by
  rw [List.countP_eq_zero]
  intro e he
  have := shaderParams_all_paramWrite w mp files m writes h e he
  cases e <;> simp_all [Event.isWriteParamsSet, Event.isParamWrite]

theorem staticSlots_ne_t (slot : ShaderStage × String) (h : slot ∈ staticSlots) :
    ¬(ShaderStage.vertex = slot.1 ∧ "t" = slot.2) := by
  simp only [staticSlots, List.mem_cons, List.mem_singleton, List.not_mem_nil, or_false] at h
  rcases h with h | h | h | h | h | h | h | h | h | h | h | h | h | h | h | h | h | h | h <;>
    subst h <;> simp

theorem OnUpdate_count_create (s s' : WaveVisualPrivate) (r : Frame) (ev : List Event)
    (h : WaveVisualPrivate.OnUpdate s r = some (s', ev)) (hc : s.consistent) :
    ev.countP Event.isCreateMaterial
      = if s.material = none ∧ s'.visual.isSome then 1 else 0 := by
  rw [OnUpdate_eq] at h
  simp only [acquireScene_events, bindMaterial_events, OnUpdate.sceneAfter, OnUpdate.visualAfter,
    OnUpdate.materialAfter, OnUpdate.updateTime] at h
  unfold WaveVisualPrivate.consistent at hc
  rcases hsc : s.scene with _ | sc <;> rcases hv : s.visual with _ | v <;>
    rcases hm : s.material with _ | m <;> simp only [hsc, hv, hm] at h hc <;>
    repeat' split at h
  all_goals try simp at h
  all_goals obtain ⟨rfl, rfl⟩ := h
  all_goals
    first
    | (have hw := shaderParams_count_create _ _ _ _ _ (by assumption)
       simp_all [List.countP_cons, List.countP_append, Event.isCreateMaterial])
    | simp_all [List.countP_cons, List.countP_append, Event.isCreateMaterial]

theorem OnUpdate_count_static (s s' : WaveVisualPrivate) (r : Frame) (ev : List Event)
    (slot : ShaderStage × String) (hslot : slot ∈ staticSlots)
    (h : WaveVisualPrivate.OnUpdate s r = some (s', ev)) :
    ev.countP (Event.assigns slot.1 slot.2)
      = if s.paramsSet = false ∧ s'.paramsSet = true then 1 else 0 := by
  have hne := staticSlots_ne_t slot hslot
  rw [OnUpdate_eq] at h
  simp only [acquireScene_events, bindMaterial_events, OnUpdate.sceneAfter, OnUpdate.visualAfter,
    OnUpdate.materialAfter, OnUpdate.updateTime] at h
  rcases hsc : s.scene with _ | sc <;> rcases hv : s.visual with _ | v <;>
    rcases hm : s.material with _ | m <;> simp only [hsc, hv, hm] at h <;>
    repeat' split at h
  all_goals try simp at h
  all_goals obtain ⟨rfl, rfl⟩ := h
  all_goals
    first
    | (have hw := shaderParams_count_static _ _ _ _ _ (by assumption) slot hslot
       simp_all [List.countP_cons, List.countP_append, Event.assigns])
    | simp_all [List.countP_cons, List.countP_append, Event.assigns]

theorem OnUpdate_count_writeParamsSet (s s' : WaveVisualPrivate) (r : Frame) (ev : List Event)
    (h : WaveVisualPrivate.OnUpdate s r = some (s', ev)) :
    ev.countP Event.isWriteParamsSet
      = if s.paramsSet = false ∧ s'.paramsSet = true then 1 else 0 := by
  rw [OnUpdate_eq] at h
  simp only [acquireScene_events, bindMaterial_events, OnUpdate.sceneAfter, OnUpdate.visualAfter,
    OnUpdate.materialAfter, OnUpdate.updateTime] at h
  rcases hsc : s.scene with _ | sc <;> rcases hv : s.visual with _ | v <;>
    rcases hm : s.material with _ | m <;> simp only [hsc, hv, hm] at h <;>
    repeat' split at h
  all_goals try simp at h
  all_goals obtain ⟨rfl, rfl⟩ := h
  all_goals
    first
    | (have hw := shaderParams_count_writeParamsSet _ _ _ _ _ (by assumption)
       simp_all [List.countP_cons, List.countP_append, Event.isWriteParamsSet])
    | simp_all [List.countP_cons, List.countP_append, Event.isWriteParamsSet]

theorem OnUpdate_material_bound (s s' : WaveVisualPrivate) (r : Frame) (ev : List Event)
    (h : WaveVisualPrivate.OnUpdate s r = some (s', ev)) (hc : s.consistent)
    (hr : r.Material.isSome) (hs : s.visual.isSome → s.material.isSome) :
    s'.visual.isSome → s'.material.isSome := by
  rw [OnUpdate_eq] at h
  simp only [acquireScene_events, bindMaterial_events, OnUpdate.sceneAfter, OnUpdate.visualAfter,
    OnUpdate.materialAfter, OnUpdate.updateTime] at h
  unfold WaveVisualPrivate.consistent at hc
  rcases hsc : s.scene with _ | sc <;> rcases hv : s.visual with _ | v <;>
    rcases hm : s.material with _ | m <;> simp only [hsc, hv, hm] at h hc hs <;>
    repeat' split at h
  all_goals try simp at h
  all_goals obtain ⟨rfl, rfl⟩ := h
  all_goals simp_all

theorem OnUpdate_reach_steady (s : WaveVisualPrivate) (r : Frame)
    (hn : s.visualName ≠ "") (hw : s.wavefield.hasThreeWaves)
    (sc : ScenePtr) (hsc : OnUpdate.sceneAfter s r = some sc)
    (v : Node) (hv : OnUpdate.visualAfter s r = some v)
    (m : MaterialPtr) (hm : OnUpdate.materialAfter s r = some m) :
    ∃ s' ev, WaveVisualPrivate.OnUpdate s r = some (s', ev) ∧
      s' = { s with scene := some sc, visual := some v, material := some m, paramsSet := true } ∧
      Event.assignFloat m .vertex "t" (secondsFloat s.currentSimTime) ∈ ev := by
  rw [OnUpdate_eq]
  simp only [hn, hsc, hv, hm, if_false]
  by_cases hp : s.paramsSet = true
  · refine ⟨_, _, by simp only [hp, if_true]; rfl, ?_, by simp [OnUpdate.updateTime]⟩
    rcases s with ⟨_, _, _, _, _, _, _, _, _, _, _, _⟩
    simp_all
  · obtain ⟨writes, hwr⟩ := shaderParams_isSome s.wavefield s.modelPath r.files m hw
    simp only [hp, hwr, if_false]
    exact ⟨_, _, rfl, rfl, by simp [OnUpdate.updateTime]⟩

theorem OnUpdate_fields (s s' : WaveVisualPrivate) (r : Frame) (ev : List Event)
    (h : WaveVisualPrivate.OnUpdate s r = some (s', ev)) :
    s'.vertexShaderUri = s.vertexShaderUri ∧ s'.fragmentShaderUri = s.fragmentShaderUri ∧
      s'.connection = s.connection ∧ s'.visualName = s.visualName ∧ s'.entity = s.entity ∧
      s'.currentSimTime = s.currentSimTime ∧ s'.modelPath = s.modelPath ∧
      s'.wavefield = s.wavefield := by
  rw [OnUpdate_eq] at h
  repeat' split at h
  all_goals try simp at h
  all_goals obtain ⟨rfl, rfl⟩ := h
  all_goals simp

/-! ## Sequences of hook calls -/

theorem Hook.run_cons (s : WaveVisualPrivate) (h : Hook) (hs : List Hook)
    (s' : WaveVisualPrivate) (ev : List Event) (hrun : Hook.run s (h :: hs) = some (s', ev)) :
    ∃ s1 e1 e2, Hook.step s h = some (s1, e1) ∧ Hook.run s1 hs = some (s', e2) ∧
      ev = e1 ++ e2 := by
  simp only [Hook.run] at hrun
  split at hrun
  · simp at hrun
  · rename_i s1 e1 h1
    split at hrun
    · simp at hrun
    · rename_i s2 e2 h2
      simp only [Option.some.injEq, Prod.mk.injEq] at hrun
      obtain ⟨rfl, rfl⟩ := hrun
      exact ⟨s1, e1, e2, h1, h2, rfl⟩

theorem Hook.step_fields (s s' : WaveVisualPrivate) (h : Hook) (ev : List Event)
    (hstep : Hook.step s h = some (s', ev)) :
    s'.vertexShaderUri = s.vertexShaderUri ∧ s'.fragmentShaderUri = s.fragmentShaderUri ∧
      s'.connection = s.connection ∧ s'.visualName = s.visualName ∧ s'.entity = s.entity ∧
      s'.modelPath = s.modelPath ∧ s'.wavefield = s.wavefield ∧
      s'.currentSimTime = lastSimTime s.currentSimTime [h] := by
  cases h with
  | PreUpdate t =>
    simp only [Hook.step, WaveVisual.PreUpdate, Option.some.injEq, Prod.mk.injEq] at hstep
    obtain ⟨rfl, rfl⟩ := hstep
    simp [lastSimTime]
  | OnUpdate r =>
    obtain ⟨h1, h2, h3, h4, h5, h6, h7, h8⟩ := OnUpdate_fields s s' r ev hstep
    simp [lastSimTime, *]

theorem lastSimTime_cons (d : Int) (h : Hook) (hs : List Hook) :
    lastSimTime d (h :: hs) = lastSimTime (lastSimTime d [h]) hs := by
  cases h <;> simp [lastSimTime]

theorem Hook.run_fields (hooks : List Hook) :
    ∀ (s s' : WaveVisualPrivate) (ev : List Event), Hook.run s hooks = some (s', ev) →
      s'.vertexShaderUri = s.vertexShaderUri ∧ s'.fragmentShaderUri = s.fragmentShaderUri ∧
        s'.connection = s.connection ∧ s'.visualName = s.visualName ∧ s'.entity = s.entity ∧
        s'.modelPath = s.modelPath ∧ s'.wavefield = s.wavefield ∧
        s'.currentSimTime = lastSimTime s.currentSimTime hooks := by
  induction hooks with
  | nil =>
    intro s s' ev h
    simp only [Hook.run, Option.some.injEq, Prod.mk.injEq] at h
    obtain ⟨rfl, rfl⟩ := h
    simp [lastSimTime]
  | cons h hs ih =>
    intro s s' ev hrun
    obtain ⟨s1, e1, e2, h1, h2, rfl⟩ := Hook.run_cons s h hs s' _ hrun
    obtain ⟨a1, a2, a3, a4, a5, a6, a7, a8⟩ := Hook.step_fields s s1 h e1 h1
    obtain ⟨b1, b2, b3, b4, b5, b6, b7, b8⟩ := ih s1 s' e2 h2
    rw [lastSimTime_cons, ← a8]
    exact ⟨b1.trans a1, b2.trans a2, b3.trans a3, b4.trans a4, b5.trans a5, b6.trans a6,
      b7.trans a7, b8⟩

theorem Hook.step_isSome (s : WaveVisualPrivate) (h : Hook) (hw : s.wavefield.hasThreeWaves) :
    ∃ res, Hook.step s h = some res := by
  cases h with
  | PreUpdate t => exact ⟨_, rfl⟩
  | OnUpdate r => exact OnUpdate_isSome s r hw

theorem Hook.run_isSome (hooks : List Hook) :
    ∀ s : WaveVisualPrivate, s.wavefield.hasThreeWaves → ∃ res, Hook.run s hooks = some res := by
  induction hooks with
  | nil => intro s _; exact ⟨_, rfl⟩
  | cons h hs ih =>
    intro s hw
    obtain ⟨⟨s1, e1⟩, h1⟩ := Hook.step_isSome s h hw
    have hw1 : s1.wavefield.hasThreeWaves := by
      rw [(Hook.step_fields s s1 h e1 h1).2.2.2.2.2.2.1]; exact hw
    obtain ⟨⟨s2, e2⟩, h2⟩ := ih s1 hw1
    exact ⟨(s2, e1 ++ e2), by simp [Hook.run, h1, h2]⟩

theorem Hook.step_monotone (s s' : WaveVisualPrivate) (h : Hook) (ev : List Event)
    (hstep : Hook.step s h = some (s', ev)) :
    (∀ v, s.visual = some v → s'.visual = some v) ∧
      (∀ m, s.material = some m → s'.material = some m) ∧
      (s.paramsSet = true → s'.paramsSet = true) ∧
      (s.visual.isSome → Event.RootVisual ∉ ev) ∧
      (s.material.isSome → ∀ m, Event.CreateMaterial m ∉ ev) := by
  cases h with
  | PreUpdate t =>
    simp only [Hook.step, WaveVisual.PreUpdate, Option.some.injEq, Prod.mk.injEq] at hstep
    obtain ⟨rfl, rfl⟩ := hstep
    simp
  | OnUpdate r => exact OnUpdate_monotone s s' r ev hstep

theorem Hook.run_monotone (hooks : List Hook) :
    ∀ (s s' : WaveVisualPrivate) (ev : List Event), Hook.run s hooks = some (s', ev) →
      (∀ v, s.visual = some v → s'.visual = some v) ∧
        (∀ m, s.material = some m → s'.material = some m) ∧
        (s.paramsSet = true → s'.paramsSet = true) ∧
        (s.visual.isSome → Event.RootVisual ∉ ev) ∧
        (s.material.isSome → ∀ m, Event.CreateMaterial m ∉ ev) := by
  induction hooks with
  | nil =>
    intro s s' ev h
    simp only [Hook.run, Option.some.injEq, Prod.mk.injEq] at h
    obtain ⟨rfl, rfl⟩ := h
    simp
  | cons h hs ih =>
    intro s s' ev hrun
    obtain ⟨s1, e1, e2, h1, h2, rfl⟩ := Hook.run_cons s h hs s' _ hrun
    obtain ⟨a1, a2, a3, a4, a5⟩ := Hook.step_monotone s s1 h e1 h1
    obtain ⟨b1, b2, b3, b4, b5⟩ := ih s1 s' e2 h2
    refine ⟨fun v hv => b1 v (a1 v hv), fun m hm => b2 m (a2 m hm), fun hp => b3 (a3 hp), ?_, ?_⟩
    · intro hv
      obtain ⟨v, hv'⟩ := Option.isSome_iff_exists.mp hv
      have h1v : s1.visual.isSome := by rw [a1 v hv']; rfl
      simp only [List.mem_append, not_or]
      exact ⟨a4 hv, b4 h1v⟩
    · intro hm m
      obtain ⟨m0, hm'⟩ := Option.isSome_iff_exists.mp hm
      have h1m : s1.material.isSome := by rw [a2 m0 hm']; rfl
      simp only [List.mem_append, not_or]
      exact ⟨a5 hm m, b5 h1m m⟩

theorem stage_le_of_monotone (s s' : WaveVisualPrivate)
    (hv : ∀ v, s.visual = some v → s'.visual = some v)
    (hm : ∀ m, s.material = some m → s'.material = some m)
    (hp : s.paramsSet = true → s'.paramsSet = true) : s.stage ≤ s'.stage := by
  unfold WaveVisualPrivate.stage
  rcases h1 : s.visual with _ | v
  · simp
  · rw [hv v h1]
    rcases h2 : s.material with _ | m
    · simp only []
      split
      · exact le_refl _
      · split <;> omega
    · rw [hm m h2]
      simp only []
      by_cases h3 : s.paramsSet = true
      · simp [h3, hp h3]
      · have h3' : s.paramsSet = false := by simpa using h3
        rw [h3']
        simp only [Bool.false_eq_true, if_false]
        split <;> omega

theorem Hook.step_consistent (s s' : WaveVisualPrivate) (h : Hook) (ev : List Event)
    (hstep : Hook.step s h = some (s', ev)) (hc : s.consistent) : s'.consistent := by
  cases h with
  | PreUpdate t =>
    simp only [Hook.step, WaveVisual.PreUpdate, Option.some.injEq, Prod.mk.injEq] at hstep
    obtain ⟨rfl, rfl⟩ := hstep
    exact hc
  | OnUpdate r => exact OnUpdate_consistent s s' r ev hstep hc

theorem Hook.run_consistent (hooks : List Hook) :
    ∀ (s s' : WaveVisualPrivate) (ev : List Event), Hook.run s hooks = some (s', ev) →
      s.consistent → s'.consistent := by
  induction hooks with
  | nil =>
    intro s s' ev h hc
    simp only [Hook.run, Option.some.injEq, Prod.mk.injEq] at h
    obtain ⟨rfl, rfl⟩ := h
    exact hc
  | cons h hs ih =>
    intro s s' ev hrun hc
    obtain ⟨s1, e1, e2, h1, h2, rfl⟩ := Hook.run_cons s h hs s' _ hrun
    exact ih s1 s' e2 h2 (Hook.step_consistent s s1 h e1 h1 hc)

theorem Hook.step_count_static (s s' : WaveVisualPrivate) (h : Hook) (ev : List Event)
    (slot : ShaderStage × String) (hslot : slot ∈ staticSlots)
    (hstep : Hook.step s h = some (s', ev)) :
    ev.countP (Event.assigns slot.1 slot.2)
      = if s.paramsSet = false ∧ s'.paramsSet = true then 1 else 0 := by
  cases h with
  | PreUpdate t =>
    simp only [Hook.step, WaveVisual.PreUpdate, Option.some.injEq, Prod.mk.injEq] at hstep
    obtain ⟨rfl, rfl⟩ := hstep
    simp [List.countP_cons, Event.assigns]
  | OnUpdate r => exact OnUpdate_count_static s s' r ev slot hslot hstep

theorem Hook.step_count_writeParamsSet (s s' : WaveVisualPrivate) (h : Hook) (ev : List Event)
    (hstep : Hook.step s h = some (s', ev)) :
    ev.countP Event.isWriteParamsSet
      = if s.paramsSet = false ∧ s'.paramsSet = true then 1 else 0 := by
  cases h with
  | PreUpdate t =>
    simp only [Hook.step, WaveVisual.PreUpdate, Option.some.injEq, Prod.mk.injEq] at hstep
    obtain ⟨rfl, rfl⟩ := hstep
    simp [List.countP_cons, Event.isWriteParamsSet]
  | OnUpdate r => exact OnUpdate_count_writeParamsSet s s' r ev hstep

theorem count_step_compose (a b c : Bool) (hab : a = true → b = true) (hbc : b = true → c = true) :
    (if a = false ∧ b = true then 1 else 0) + (if b = false ∧ c = true then 1 else 0)
      = (if a = false ∧ c = true then (1 : Nat) else 0) := by
  cases a <;> cases b <;> cases c <;> simp_all

theorem Hook.run_count_of_step (p : Event → Bool)
    (hstep : ∀ (s s' : WaveVisualPrivate) (h : Hook) (ev : List Event),
      Hook.step s h = some (s', ev) →
        ev.countP p = if s.paramsSet = false ∧ s'.paramsSet = true then 1 else 0)
    (hooks : List Hook) :
    ∀ (s s' : WaveVisualPrivate) (ev : List Event), Hook.run s hooks = some (s', ev) →
      ev.countP p = if s.paramsSet = false ∧ s'.paramsSet = true then 1 else 0 := by
  induction hooks with
  | nil =>
    intro s s' ev h
    simp only [Hook.run, Option.some.injEq, Prod.mk.injEq] at h
    obtain ⟨rfl, rfl⟩ := h
    cases s.paramsSet <;> simp
  | cons h hs ih =>
    intro s s' ev hrun
    obtain ⟨s1, e1, e2, h1, h2, rfl⟩ := Hook.run_cons s h hs s' _ hrun
    rw [List.countP_append, hstep s s1 h e1 h1, ih s1 s' e2 h2]
    exact count_step_compose _ _ _ (Hook.step_monotone s s1 h e1 h1).2.2.1
      (Hook.run_monotone hs s1 s' e2 h2).2.2.1

theorem Hook.step_count_create (s s' : WaveVisualPrivate) (h : Hook) (ev : List Event)
    (hstep : Hook.step s h = some (s', ev)) (hc : s.consistent)
    (hr : Hook.allFrames (fun r => r.Material.isSome) [h])
    (hs : s.visual.isSome → s.material.isSome) :
    (s'.visual.isSome → s'.material.isSome) ∧
      ev.countP Event.isCreateMaterial
        = if s.material.isSome = false ∧ s'.material.isSome = true then 1 else 0 := by
  cases h with
  | PreUpdate t =>
    simp only [Hook.step, WaveVisual.PreUpdate, Option.some.injEq, Prod.mk.injEq] at hstep
    obtain ⟨rfl, rfl⟩ := hstep
    refine ⟨hs, ?_⟩
    cases s.material <;> simp [List.countP_cons, Event.isCreateMaterial]
  | OnUpdate r =>
    have hb := OnUpdate_material_bound s s' r ev hstep hc hr.1 hs
    have hc' := OnUpdate_consistent s s' r ev hstep hc
    refine ⟨hb, ?_⟩
    rw [OnUpdate_count_create s s' r ev hstep hc]
    have hmono := (OnUpdate_monotone s s' r ev hstep).2.1
    rcases hm : s.material with _ | m
    · rcases hv' : s'.visual with _ | v'
      · have : s'.material.isSome = false := by
          rcases hm' : s'.material with _ | m'
          · rfl
          · have := hc'.2.1 (by rw [hm']; rfl)
            rw [hv'] at this
            simp at this
        simp [this]
      · have : s'.material.isSome = true := hb (by rw [hv']; rfl)
        simp [this]
    · simp

theorem Hook.run_count_create (hooks : List Hook) :
    ∀ (s s' : WaveVisualPrivate) (ev : List Event), Hook.run s hooks = some (s', ev) →
      s.consistent → Hook.allFrames (fun r => r.Material.isSome) hooks →
      (s.visual.isSome → s.material.isSome) →
      (s'.visual.isSome → s'.material.isSome) ∧
        ev.countP Event.isCreateMaterial
          = if s.material.isSome = false ∧ s'.material.isSome = true then 1 else 0 := by
  induction hooks with
  | nil =>
    intro s s' ev h hc _ hs
    simp only [Hook.run, Option.some.injEq, Prod.mk.injEq] at h
    obtain ⟨rfl, rfl⟩ := h
    refine ⟨hs, ?_⟩
    cases s.material <;> simp
  | cons h hs ih =>
    intro s s' ev hrun hc hfr hsm
    obtain ⟨s1, e1, e2, h1, h2, rfl⟩ := Hook.run_cons s h hs s' _ hrun
    have hfr1 : Hook.allFrames (fun r => r.Material.isSome) [h] ∧
        Hook.allFrames (fun r => r.Material.isSome) hs := by
      cases h <;> simp_all [Hook.allFrames]
    obtain ⟨a1, a2⟩ := Hook.step_count_create s s1 h e1 h1 hc hfr1.1 hsm
    obtain ⟨b1, b2⟩ := ih s1 s' e2 h2 (Hook.step_consistent s s1 h e1 h1 hc) hfr1.2 a1
    refine ⟨b1, ?_⟩
    rw [List.countP_append, a2, b2]
    have m1 := (Hook.step_monotone s s1 h e1 h1).2.1
    have m2 := (Hook.run_monotone hs s1 s' e2 h2).2.1
    refine count_step_compose _ _ _ ?_ ?_
    · intro hx
      obtain ⟨m, hm⟩ := Option.isSome_iff_exists.mp hx
      rw [m1 m hm]; rfl
    · intro hx
      obtain ⟨m, hm⟩ := Option.isSome_iff_exists.mp hx
      rw [m2 m hm]; rfl

theorem matchesEntity_eq (e : Entity) :
    matchesEntity e
      = fun n => decide (Node.userData n = some (Variant.int (static_cast_int e))) := by
  funext n
  unfold matchesEntity
  rcases Node.userData n with _ | u
  · simp
  · cases u <;> simp [get_if_int]
    rw [Bool.eq_iff_iff]
    simp

theorem static_cast_int_small (e : Nat) (h : e < 2 ^ 31) : static_cast_int e = (e : Int) := by
  unfold static_cast_int
  have h1 : e % 2 ^ 32 = e := Nat.mod_eq_of_lt (by omega)
  rw [h1, if_pos h]

theorem lifetime_eq_some (w0 : Wavefield) (_entity : Entity) (_sdf : SdfElement)
    (_ecm : EntityComponentManager) (files : Files) (hooks : List Hook)
    (s : WaveVisualPrivate) (ev : List Event)
    (h : WaveVisual.lifetime w0 _entity _sdf _ecm files hooks = some (s, ev)) :
    ∃ s0 e0 e1, WaveVisual.Configure (WaveVisualPrivate.new w0) _entity _sdf _ecm files
        = some (s0, e0) ∧ Hook.run s0 hooks = some (s, e1) ∧ ev = e0 ++ e1 := by
  unfold WaveVisual.lifetime at h
  split at h
  · simp at h
  · rename_i s0 e0 h0
    split at h
    · simp at h
    · rename_i s1 e1 h1
      simp only [Option.some.injEq, Prod.mk.injEq] at h
      obtain ⟨rfl, rfl⟩ := h
      exact ⟨s0, e0, e1, h0, h1, rfl⟩

theorem Configure_new (w0 : Wavefield) (_entity : Entity) (_sdf : SdfElement)
    (_ecm : EntityComponentManager) (files : Files) (s0 : WaveVisualPrivate) (e0 : List Event)
    (h : WaveVisual.Configure (WaveVisualPrivate.new w0) _entity _sdf _ecm files = some (s0, e0)) :
    s0.visual = none ∧ s0.material = none ∧ s0.scene = none ∧ s0.paramsSet = false ∧
      s0.currentSimTime = 0 ∧
      (∀ e ∈ e0, Event.isRendering e = false ∧ Event.isSharedAccess e = false ∧
        Event.isLock e = false) := by
  unfold WaveVisual.Configure at h
  repeat' split at h
  all_goals try simp at h
  all_goals obtain ⟨rfl, rfl⟩ := h
  all_goals simp [WaveVisualPrivate.new, Event.isRendering, Event.isSharedAccess, Event.isLock]

theorem Configure_inert (s : WaveVisualPrivate) (_entity : Entity) (_sdf : SdfElement)
    (_ecm : EntityComponentManager) (files : Files)
    (h : _sdf.wavefield = none ∨ _sdf.shader = none) :
    ∃ msg, WaveVisual.Configure s _entity _sdf _ecm files = some (s, [Event.ignerr msg]) := by
  unfold WaveVisual.Configure
  rcases hw : _sdf.wavefield with _ | w
  · exact ⟨_, rfl⟩
  · rcases hs : _sdf.shader with _ | sh
    · exact ⟨_, rfl⟩
    · rw [hw, hs] at h
      simp at h

/-! ## Floating-point conversions -/

theorem roundHalfEven_sub_le (q : ℚ) : |(roundHalfEven q : ℚ) - q| ≤ 1 / 2 := by
  have h1 : (⌊q⌋ : ℚ) ≤ q := Int.floor_le q
  have h2 : q < (⌊q⌋ : ℚ) + 1 := Int.lt_floor_add_one q
  unfold roundHalfEven
  split
  · rw [abs_le]; constructor <;> linarith
  · split
    · push_cast; rw [abs_le]; constructor <;> linarith
    · have h3 : q - ⌊q⌋ = 1 / 2 := le_antisymm (by linarith) (by linarith)
      split
      · rw [abs_le]; constructor <;> linarith
      · push_cast; rw [abs_le]; constructor <;> linarith

theorem roundSig_sub_le (p : ℕ) (q : ℚ) :
    |roundSig p q - q| ≤ |q| * 2 ^ (-(p : ℤ)) := by
  unfold roundSig
  split
  · rename_i h0; simp [h0]
  · rename_i h0
    have hq : 0 < |q| := abs_pos.mpr h0
    set e : ℤ := Int.log 2 |q| + 1 - (p : ℤ) with he
    have hpos : (0 : ℚ) < 2 ^ e := zpow_pos (by norm_num) e
    have hr := roundHalfEven_sub_le (q / 2 ^ e)
    have hlog : (2 : ℚ) ^ Int.log 2 |q| ≤ |q| := by
      have := Int.zpow_log_le_self (b := 2) (r := |q|) (by norm_num) hq
      simpa using this
    have key : (roundHalfEven (q / 2 ^ e) : ℚ) * 2 ^ e - q
        = ((roundHalfEven (q / 2 ^ e) : ℚ) - q / 2 ^ e) * 2 ^ e := by
      field_simp
    rw [key, abs_mul, abs_of_pos hpos]
    have hsplit : (2 : ℚ) ^ e = 2 ^ Int.log 2 |q| * 2 ^ (-(p : ℤ)) * 2 := by
      rw [he, show Int.log 2 |q| + 1 - (p : ℤ) = Int.log 2 |q| + -(p : ℤ) + 1 by ring,
        zpow_add₀ (by norm_num : (2 : ℚ) ≠ 0), zpow_add₀ (by norm_num : (2 : ℚ) ≠ 0)]
      norm_num
    have hp2 : (0 : ℚ) < 2 ^ (-(p : ℤ)) := zpow_pos (by norm_num) _
    calc |(roundHalfEven (q / 2 ^ e) : ℚ) - q / 2 ^ e| * 2 ^ e
        ≤ 1 / 2 * 2 ^ e := mul_le_mul_of_nonneg_right hr hpos.le
      _ = 2 ^ Int.log 2 |q| * 2 ^ (-(p : ℤ)) := by rw [hsplit]; ring
      _ ≤ |q| * 2 ^ (-(p : ℤ)) := mul_le_mul_of_nonneg_right hlog hp2.le

theorem relErr_abs_le (x a ε : ℚ) (h : |a - x| ≤ |x| * ε) : |a| ≤ |x| * (1 + ε) := by
  have : |a| ≤ |a - x| + |x| := by
    have := abs_add (a - x) x
    simpa using this
  linarith

theorem relErr_chain (x a b ε₁ ε₂ : ℚ) (h1 : |a - x| ≤ |x| * ε₁) (h2 : |b - a| ≤ |a| * ε₂)
    (hε : 0 ≤ ε₂) : |b - x| ≤ |x| * (ε₁ + (1 + ε₁) * ε₂) := by
  have ha := relErr_abs_le x a ε₁ h1
  have h3 : |b - x| ≤ |b - a| + |a - x| := by
    have := abs_add (b - a) (a - x)
    simpa using this
  have h4 : |a| * ε₂ ≤ |x| * (1 + ε₁) * ε₂ := mul_le_mul_of_nonneg_right ha hε
  nlinarith

theorem relErr_mul (x y a b ε₁ ε₂ : ℚ) (h1 : |a - x| ≤ |x| * ε₁) (h2 : |b - y| ≤ |y| * ε₂)
    (hε : 0 ≤ ε₁) : |a * b - x * y| ≤ |x * y| * (ε₁ + ε₂ + ε₁ * ε₂) := by
  have hb := relErr_abs_le y b ε₂ h2
  have h3 : |a * b - x * y| ≤ |a - x| * |b| + |x| * |b - y| := by
    have := abs_add ((a - x) * b) (x * (b - y))
    rw [abs_mul, abs_mul] at this
    calc |a * b - x * y| = |(a - x) * b + x * (b - y)| := by ring_nf
      _ ≤ _ := this
  have h4 : |a - x| * |b| ≤ (|x| * ε₁) * (|y| * (1 + ε₂)) :=
    mul_le_mul h1 hb (abs_nonneg _) (mul_nonneg (abs_nonneg _) hε)
  have h5 : |x| * |b - y| ≤ |x| * (|y| * ε₂) := mul_le_mul_of_nonneg_left h2 (abs_nonneg _)
  rw [abs_mul]
  nlinarith

theorem secondsFloat_error (count : Int) :
    |secondsFloat count - (count : ℚ) / 10 ^ 9|
      ≤ |(count : ℚ) / 10 ^ 9| * (2 ^ (-(24 : ℤ)) + 2 ^ (-(51 : ℤ))) := by
  unfold secondsFloat toFloat toDouble
  have hx := roundSig_sub_le 53 (count : ℚ)
  have hc := roundSig_sub_le 53 (1 / 10 ^ 9)
  have hm := relErr_mul _ _ _ _ _ _ hx hc (by positivity)
  have hd := roundSig_sub_le 53 (roundSig 53 (count : ℚ) * roundSig 53 (1 / 10 ^ 9))
  have h1 := relErr_chain _ _ _ _ _ hm hd (by positivity)
  have hf := roundSig_sub_le 24
    (roundSig 53 (roundSig 53 (count : ℚ) * roundSig 53 (1 / 10 ^ 9)))
  have h2 := relErr_chain _ _ _ _ _ h1 hf (by positivity)
  have hxy : (count : ℚ) * (1 / 10 ^ 9) = (count : ℚ) / 10 ^ 9 := by ring
  rw [hxy] at h2
  refine h2.trans (mul_le_mul_of_nonneg_left ?_ (abs_nonneg _))
  norm_num

theorem Int.log_two_eq (q : ℚ) (L : ℤ) (hq : 0 < q) (h1 : (2 : ℚ) ^ L ≤ q)
    (h2 : q < (2 : ℚ) ^ (L + 1)) : Int.log 2 q = L := by
  have a : L ≤ Int.log 2 q := by
    have := (Int.zpow_le_iff_le_log (b := 2) (by norm_num) (x := L) hq).mp (by simpa using h1)
    exact this
  have b : Int.log 2 q < L + 1 := by
    have := (Int.lt_zpow_iff_log_lt (b := 2) (by norm_num) (x := L + 1) hq).mp
      (by simpa using h2)
    exact this
  omega

theorem roundHalfEven_eq_of_lt (q : ℚ) (k : ℤ) (h1 : (k : ℚ) ≤ q) (h2 : q - k < 1 / 2) :
    roundHalfEven q = k := by
  have hf : ⌊q⌋ = k := by
    rw [Int.floor_eq_iff]
    constructor <;> linarith
  unfold roundHalfEven
  rw [hf, if_pos h2]

theorem roundHalfEven_eq_of_gt (q : ℚ) (k : ℤ) (h1 : 1 / 2 < q - k) (h2 : q < k + 1) :
    roundHalfEven q = k + 1 := by
  have hf : ⌊q⌋ = k := by
    rw [Int.floor_eq_iff]
    constructor <;> linarith
  unfold roundHalfEven
  rw [hf, if_neg (by linarith), if_pos h1]

theorem roundSig_eq (p : ℕ) (q : ℚ) (L k : ℤ) (hq : 0 < q) (h1 : (2 : ℚ) ^ L ≤ q)
    (h2 : q < (2 : ℚ) ^ (L + 1)) (hk : roundHalfEven (q / 2 ^ (L + 1 - (p : ℤ))) = k) :
    roundSig p q = (k : ℚ) * 2 ^ (L + 1 - (p : ℤ)) := by
  unfold roundSig
  rw [if_neg hq.ne', abs_of_pos hq, Int.log_two_eq q L hq h1 h2, hk]

theorem toDouble_count : toDouble ((2500000000 : Int) : ℚ) = 2500000000 := by
  unfold toDouble
  rw [roundSig_eq 53 _ 31 5242880000000000 (by norm_num) (by norm_num) (by norm_num)
    (roundHalfEven_eq_of_lt _ _ (by norm_num) (by norm_num))]
  norm_num

theorem toDouble_nano :
    toDouble (1 / 10 ^ 9) = 4835703278458517 / 4835703278458516698824704 := by
  unfold toDouble
  rw [roundSig_eq 53 _ (-30) 4835703278458517 (by norm_num) (by norm_num) (by norm_num)
    (roundHalfEven_eq_of_gt _ 4835703278458516 (by norm_num) (by norm_num))]
  norm_num

theorem secondsFloat_two_and_a_half : secondsFloat 2500000000 = 5 / 2 := by
  unfold secondsFloat
  rw [toDouble_count, toDouble_nano]
  have hd : toDouble (2500000000 * (4835703278458517 / 4835703278458516698824704)) = 5 / 2 := by
    unfold toDouble
    rw [roundSig_eq 53 _ 1 5629499534213120 (by norm_num) (by norm_num) (by norm_num)
      (roundHalfEven_eq_of_lt _ _ (by norm_num) (by norm_num))]
    norm_num
  rw [hd]
  unfold toFloat
  rw [roundSig_eq 24 _ 1 10485760 (by norm_num) (by norm_num) (by norm_num)
    (roundHalfEven_eq_of_lt _ _ (by norm_num) (by norm_num))]
  norm_num

/-! ## C1: the node lookup -/

/-- C1 (counterexamples). The claim reads the tag test as equality with the
entity id and lets the handle take any matching node. On the scene
`exTreeLight` exactly one node, the non-visual node `exLight`, carries the tag 7
and it is the first match in breadth-first order, yet the render frame of the
component for entity 7 leaves the visual handle empty. On the scene
`exTreeFive` no node carries a tag equal to the entity id 2^32 + 5, yet the
render frame of the component for that entity resolves the handle to the node
tagged 5. -/
theorem C1_counterexample :
    (breadthFirstOrder exTreeLight).filter (tagEqualsId 7) = [exLight] ∧
      (breadthFirstOrder exTreeLight).find? (tagEqualsId 7) = some exLight ∧
      (WaveVisualPrivate.OnUpdate exConfigured exFrameLight).map (fun x => x.1.visual)
        = some none ∧
      (breadthFirstOrder exTreeFive).filter (tagEqualsId (2 ^ 32 + 5)) = [] ∧
      (WaveVisualPrivate.OnUpdate { exConfigured with entity := 2 ^ 32 + 5 } exFrameFive).map
        (fun x => x.1.visual) = some (some exTreeFive) :=
  ⟨rfl, rfl, rfl, rfl, rfl⟩

/-- C1 (amended). While no visual is cached, the lookup of the render-frame hook
always terminates, and for the tag test "the user data holds an `int` equal to
`static_cast<int>` of the entity id" it sets the visual handle as follows: if
the first node in breadth-first order (shallowest, leftmost at that depth)
passing the test is a `Visual`, the handle becomes that node; if no node
passing the test is a `Visual` (in particular if no node passes the test), the
handle stays empty. For entity ids below 2^31 the converted id is the id
itself. -/
theorem C1_lookup_breadth_first (s : WaveVisualPrivate) (r : Frame) (h : s.visual = none) :
    ∃ found, OnUpdate.resolveVisual s r = some ({ s with visual := found }, [Event.RootVisual]) ∧
      (∀ n, (breadthFirstOrder r.RootVisual).find?
            (fun n => decide (Node.userData n = some (Variant.int (static_cast_int s.entity))))
          = some n → Node.isVisual n = true → found = some n) ∧
      ((∀ n ∈ breadthFirstOrder r.RootVisual,
          Node.userData n = some (Variant.int (static_cast_int s.entity)) →
            Node.isVisual n = false) → found = none) ∧
      (s.entity < 2 ^ 31 → static_cast_int s.entity = (s.entity : Int)) := by
  refine ⟨((breadthFirstOrder r.RootVisual).find? (matchesEntity s.entity)).bind
    dynamic_pointer_cast_Visual, ?_, ?_, ?_, static_cast_int_small s.entity⟩
  · unfold OnUpdate.resolveVisual
    rw [h, findVisual_eq]
  · intro n hn hv
    rw [matchesEntity_eq, hn]
    simp [dynamic_pointer_cast_Visual, hv]
  · intro hall
    rw [matchesEntity_eq]
    rcases hf : (breadthFirstOrder r.RootVisual).find?
      (fun n => decide (Node.userData n = some (Variant.int (static_cast_int s.entity)))) with _ | n
    · rfl
    · have hmem := List.mem_of_find?_eq_some hf
      have htest := List.find?_some hf
      have := hall n hmem (by simpa using htest)
      simp [dynamic_pointer_cast_Visual, this]

/-- C1 (witness): the lookup of the configured sample component on the sample
scene finds the visual tagged 7. -/
theorem C1_lookup_breadth_first_witness :
    exConfigured.visual = none ∧
      ∃ found, OnUpdate.resolveVisual exConfigured exFrame
          = some ({ exConfigured with visual := found }, [Event.RootVisual]) ∧
        found = some exWaterVisual := by
  obtain ⟨found, h1, h2, _, _⟩ := C1_lookup_breadth_first exConfigured exFrame rfl
  exact ⟨rfl, found, h1, h2 exWaterVisual rfl rfl⟩

/-! ## C2: the simulation time handed to the render frame -/

theorem lastSimTime_of_no_PreUpdate (d : Int) (hooks : List Hook)
    (h : ∀ t, Hook.PreUpdate t ∉ hooks) : lastSimTime d hooks = d := by
  induction hooks generalizing d with
  | nil => rfl
  | cons x xs ih =>
    cases x with
    | PreUpdate t => exact absurd (List.mem_cons_self _ _) (h t)
    | OnUpdate r =>
      simp only [lastSimTime]
      exact ih d (fun t ht => h t (List.mem_cons_of_mem _ ht))

theorem lastSimTime_append_PreUpdate (d t : Int) (hooks : List Hook) :
    lastSimTime d (hooks ++ [Hook.PreUpdate t]) = t := by
  induction hooks generalizing d with
  | nil => rfl
  | cons x xs ih => cases x <;> simp [lastSimTime, ih]

theorem lastSimTime_append_OnUpdate (d : Int) (r : Frame) (hooks : List Hook) :
    lastSimTime d (hooks ++ [Hook.OnUpdate r]) = lastSimTime d hooks := by
  induction hooks generalizing d with
  | nil => rfl
  | cons x xs ih => cases x <;> simp [lastSimTime, ih]

theorem OnUpdate_t_value (s s' : WaveVisualPrivate) (r : Frame) (ev : List Event)
    (h : WaveVisualPrivate.OnUpdate s r = some (s', ev)) (m : MaterialPtr) (v : ℚ)
    (hv : Event.assignFloat m .vertex "t" v ∈ ev) : v = secondsFloat s.currentSimTime := by
  rw [OnUpdate_eq] at h
  simp only [acquireScene_events, bindMaterial_events, OnUpdate.updateTime] at h
  repeat' split at h
  all_goals try simp at h
  all_goals obtain ⟨rfl, rfl⟩ := h
  all_goals simp at hv
  all_goals
    first
    | exact hv.2
    | (rcases hv with hv | hv
       · have hw := shaderParams_count_t _ _ _ _ _ (by assumption)
         rw [List.countP_eq_zero] at hw
         have := hw _ hv
         simp [Event.assigns] at this
       · exact hv.2)

/-- C2. Over the lifetime of a component (construction, `Configure`, then any
interleaving of `PreUpdate` and render-frame calls), the stored simulation
time at any point is the argument of the most recent `PreUpdate`, and zero if
there was none; a render frame called at that point does not change the stored
time, and whenever it writes the slot `t` it writes the seconds value of
exactly that time. -/
theorem C2_last_write_wins (w0 : Wavefield) (_entity : Entity) (_sdf : SdfElement)
    (_ecm : EntityComponentManager) (files : Files) (hooks : List Hook) (r : Frame)
    (s s' : WaveVisualPrivate) (ev ev' : List Event)
    (hlife : WaveVisual.lifetime w0 _entity _sdf _ecm files hooks = some (s, ev))
    (hframe : WaveVisualPrivate.OnUpdate s r = some (s', ev')) :
    s.currentSimTime = lastSimTime 0 hooks ∧
      ((∀ t, Hook.PreUpdate t ∉ hooks) → s.currentSimTime = 0) ∧
      (∀ pre t, hooks = pre ++ [Hook.PreUpdate t] → s.currentSimTime = t) ∧
      (∀ pre r0, hooks = pre ++ [Hook.OnUpdate r0] → s.currentSimTime = lastSimTime 0 pre) ∧
      s'.currentSimTime = s.currentSimTime ∧
      (∀ m v, Event.assignFloat m .vertex "t" v ∈ ev' →
        v = secondsFloat (lastSimTime 0 hooks)) := by
  obtain ⟨s0, e0, e1, hcfg, hrun, rfl⟩ := lifetime_eq_some _ _ _ _ _ _ _ _ hlife
  have h0 := (Configure_new _ _ _ _ _ _ _ hcfg).2.2.2.2.1
  have ht : s.currentSimTime = lastSimTime 0 hooks := by
    rw [← h0]; exact (Hook.run_fields hooks s0 s e1 hrun).2.2.2.2.2.2.2
  refine ⟨ht, ?_, ?_, ?_, (OnUpdate_fields s s' r ev' hframe).2.2.2.2.2.1, ?_⟩
  · intro hno
    rw [ht, lastSimTime_of_no_PreUpdate 0 hooks hno]
  · rintro pre t rfl
    rw [ht, lastSimTime_append_PreUpdate]
  · rintro pre r0 rfl
    rw [ht, lastSimTime_append_OnUpdate]
  · intro m v hv
    rw [← ht]
    exact OnUpdate_t_value s s' r ev' hframe m v hv

/-- C2 (witness): two simulation steps, at 1 s and at 2.5 s, then the first
render frame of the sample component. -/
theorem C2_last_write_wins_witness :
    (exSteady 2500000000).currentSimTime
        = lastSimTime 0 [Hook.PreUpdate 1000000000, Hook.PreUpdate 2500000000] ∧
      ∀ m v, Event.assignFloat m .vertex "t" v ∈ exFirstFrameEvents 2500000000 →
        v = secondsFloat (lastSimTime 0 [Hook.PreUpdate 1000000000, Hook.PreUpdate 2500000000]) :=
  have h := C2_last_write_wins exWavefield 7 exSdf exEcm exFiles
    [Hook.PreUpdate 1000000000, Hook.PreUpdate 2500000000] exFrame
    { exConfigured with currentSimTime := 2500000000 } (exSteady 2500000000)
    [Event.Connect, Event.lock, Event.writeSimTime 1000000000, Event.unlock,
      Event.lock, Event.writeSimTime 2500000000, Event.unlock]
    (exFirstFrameEvents 2500000000) rfl rfl
  ⟨rfl, h.2.2.2.2.2⟩

/-! ## C3: reaching the steady state -/

/-- C3 (counterexamples). The sample component has a visual name and both
shader paths, and each scene below contains the visual `exWaterVisual` tagged
with its entity id 7. Yet after three render frames the component is not
steady (a) when the visual reports no material after the attachment (stage 1),
(b) when a non-visual node with the same tag comes first in breadth-first
order (stage 0); and (c) with a wavefield of two components the first render
frame reads a vector past its end and has no defined result. -/
theorem C3_counterexample :
    exConfigured.visualName = "waves_visual" ∧
      exConfigured.vertexShaderUri = "materials/waves_vs.glsl" ∧
      exConfigured.fragmentShaderUri = "materials/waves_fs.glsl" ∧
      breadthFirstOrder exTree = [exTree, exWaterVisual] ∧
      breadthFirstOrder exTreeShadowed = [exTreeShadowed, exLight, exWaterVisual] ∧
      Node.isVisual exWaterVisual = true ∧
      Node.userData exWaterVisual = some (Variant.int 7) ∧
      (Hook.run exConfigured [Hook.OnUpdate exFrameNoMaterial, Hook.OnUpdate exFrameNoMaterial,
        Hook.OnUpdate exFrameNoMaterial]).map (fun x => x.1.stage) = some 1 ∧
      (Hook.run exConfigured [Hook.OnUpdate exFrameShadowed, Hook.OnUpdate exFrameShadowed,
        Hook.OnUpdate exFrameShadowed]).map (fun x => x.1.stage) = some 0 ∧
      WaveVisualPrivate.OnUpdate { exConfigured with wavefield := exWavefield2 } exFrame = none :=
  ⟨rfl, rfl, rfl, rfl, rfl, rfl, rfl, rfl, rfl, rfl⟩

/-- C3 (amended). Let the component have a non-empty visual name and a wavefield
whose vectors have at least three entries. In a render frame in which a scene
is available (cached or given by the engine), the visual is cached or the
first node in breadth-first order whose tag holds the converted entity id is a
`Visual`, and the material is cached or the visual reports a non-null material
after the attachment, a single call of `OnUpdate` returns and leaves the
component steady: visual, material and `paramsSet` are set, and `t` has been
written on that material with the seconds value of the stored time. The bound
is one call, whatever the scene tree and the simulation time. -/
theorem C3_steady_in_one_frame (s : WaveVisualPrivate) (r : Frame)
    (hname : s.visualName ≠ "") (hwaves : s.wavefield.hasThreeWaves)
    (hscene : s.scene.isSome ∨ r.sceneFromFirstRenderEngine.isSome)
    (hvisual : s.visual.isSome ∨
      ∃ v, (breadthFirstOrder r.RootVisual).find?
          (fun n => decide (Node.userData n = some (Variant.int (static_cast_int s.entity))))
        = some v ∧ Node.isVisual v = true)
    (hmaterial : s.material.isSome ∨ r.Material.isSome) :
    ∃ s' ev m, WaveVisualPrivate.OnUpdate s r = some (s', ev) ∧
      s'.stage = 3 ∧ s'.visual.isSome ∧ s'.material = some m ∧ s'.paramsSet = true ∧
      Event.assignFloat m .vertex "t" (secondsFloat s.currentSimTime) ∈ ev := by
  have hsc : ∃ sc, OnUpdate.sceneAfter s r = some sc := by
    unfold OnUpdate.sceneAfter
    rcases h : s.scene with _ | sc
    · rcases hscene with h' | h'
      · rw [h] at h'; simp at h'
      · exact Option.isSome_iff_exists.mp h'
    · exact ⟨sc, rfl⟩
  have hv : ∃ v, OnUpdate.visualAfter s r = some v := by
    unfold OnUpdate.visualAfter
    rcases h : s.visual with _ | v
    · rcases hvisual with h' | ⟨v, h1, h2⟩
      · rw [h] at h'; simp at h'
      · refine ⟨v, ?_⟩
        simp only [matchesEntity_eq, h1, Option.bind, dynamic_pointer_cast_Visual, h2, if_true]
    · exact ⟨v, rfl⟩
  have hm : ∃ m, OnUpdate.materialAfter s r = some m := by
    unfold OnUpdate.materialAfter
    rcases h : s.material with _ | m
    · rcases hmaterial with h' | h'
      · rw [h] at h'; simp at h'
      · exact Option.isSome_iff_exists.mp h'
    · exact ⟨m, rfl⟩
  obtain ⟨sc, hsc⟩ := hsc
  obtain ⟨v, hv⟩ := hv
  obtain ⟨m, hm⟩ := hm
  obtain ⟨s', ev, h1, h2, h3⟩ := OnUpdate_reach_steady s r hname hwaves sc hsc v hv m hm
  refine ⟨s', ev, m, h1, ?_, ?_, ?_, ?_, h3⟩ <;> subst h2 <;> simp [WaveVisualPrivate.stage]

/-- C3 (witness): the first render frame of the sample component. -/
theorem C3_steady_in_one_frame_witness :
    ∃ s' ev m, WaveVisualPrivate.OnUpdate exConfigured exFrame = some (s', ev) ∧
      s'.stage = 3 ∧ s'.visual.isSome ∧ s'.material = some m ∧ s'.paramsSet = true ∧
      Event.assignFloat m .vertex "t" (secondsFloat exConfigured.currentSimTime) ∈ ev :=
  C3_steady_in_one_frame exConfigured exFrame (by decide) (by decide) (Or.inr rfl)
    (Or.inr ⟨exWaterVisual, rfl, rfl⟩) (Or.inr rfl)

/-! ## C4: the state of the frame updater never regresses -/

/-- C4. No sequence of `PreUpdate` and `OnUpdate` calls moves the component to
an earlier state: the stage (0 unresolved, 1 material unbound, 2 parameters
unset, 3 steady) never decreases; a visual handle that is set is kept and no
lookup (`RootVisual`) is made again; a material handle that is set is kept and
no material is created again; `paramsSet` stays true once true. -/
theorem C4_no_regression (s s' : WaveVisualPrivate) (hooks : List Hook) (ev : List Event)
    (h : Hook.run s hooks = some (s', ev)) :
    s.stage ≤ s'.stage ∧
      (∀ v, s.visual = some v → s'.visual = some v ∧ Event.RootVisual ∉ ev) ∧
      (∀ m, s.material = some m → s'.material = some m ∧ ∀ m', Event.CreateMaterial m' ∉ ev) ∧
      (s.paramsSet = true → s'.paramsSet = true) := by
  obtain ⟨h1, h2, h3, h4, h5⟩ := Hook.run_monotone hooks s s' ev h
  refine ⟨stage_le_of_monotone s s' h1 h2 h3, ?_, ?_, h3⟩
  · intro v hv
    exact ⟨h1 v hv, h4 (by rw [hv]; rfl)⟩
  · intro m hm
    exact ⟨h2 m hm, h5 (by rw [hm]; rfl)⟩

/-- C4 (witness): the sample component over its first render frame, a
simulation step and a second render frame. -/
theorem C4_no_regression_witness :
    exConfigured.stage ≤ (exSteady 5).stage ∧ exConfigured.stage = 0 ∧ (exSteady 5).stage = 3 :=
  ⟨(C4_no_regression exConfigured (exSteady 5)
    [Hook.OnUpdate exFrame, Hook.PreUpdate 5, Hook.OnUpdate exFrame]
    (exFirstFrameEvents 0 ++ ([Event.lock, Event.writeSimTime 5, Event.unlock]
      ++ steadyFrameEvents 11 5)) rfl).1, rfl, rfl⟩

/-! ## C5: how often a material is created -/

/-- C5 (counterexample). With a renderer whose visual reports no material after
the attachment, two render frames of the sample component create two
materials. -/
theorem C5_counterexample :
    (WaveVisual.lifetime exWavefield 7 exSdf exEcm exFiles
        [Hook.OnUpdate exFrameNoMaterial, Hook.OnUpdate exFrameNoMaterial]).map
      (fun x => (x.1.visual.isSome, x.2.countP Event.isCreateMaterial)) = some (true, 2) := by
  decide

/-- C5 (amended). If in every render frame the visual reports a non-null
material after the attachment, then over the lifetime of the component
`CreateMaterial` is called exactly once if a visual has been resolved and not
at all otherwise. -/
theorem C5_one_material (w0 : Wavefield) (_entity : Entity) (_sdf : SdfElement)
    (_ecm : EntityComponentManager) (files : Files) (hooks : List Hook)
    (s : WaveVisualPrivate) (ev : List Event)
    (hrenderer : Hook.allFrames (fun r => r.Material.isSome) hooks)
    (hlife : WaveVisual.lifetime w0 _entity _sdf _ecm files hooks = some (s, ev)) :
    ev.countP Event.isCreateMaterial = (if s.visual.isSome then 1 else 0) ∧
      ev.countP Event.isCreateMaterial ≤ 1 := by
  obtain ⟨s0, e0, e1, hcfg, hrun, rfl⟩ := lifetime_eq_some _ _ _ _ _ _ _ _ hlife
  obtain ⟨c1, c2, c3, c4, c5, c6⟩ := Configure_new _ _ _ _ _ _ _ hcfg
  have hc0 : s0.consistent := by
    unfold WaveVisualPrivate.consistent
    simp [c1, c2, c4]
  have he0 : e0.countP Event.isCreateMaterial = 0 := by
    rw [List.countP_eq_zero]
    intro e he
    have := (c6 e he).1
    cases e <;> simp_all [Event.isCreateMaterial, Event.isRendering]
  obtain ⟨hb, hcount⟩ := Hook.run_count_create hooks s0 s e1 hrun hc0 hrenderer (by simp [c1])
  have hcons := Hook.run_consistent hooks s0 s e1 hrun hc0
  have hiff : s.visual.isSome = s.material.isSome := by
    rcases hv : s.visual with _ | v
    · rcases hm : s.material with _ | m
      · rfl
      · have := hcons.2.1 (by rw [hm]; rfl)
        rw [hv] at this
        simp at this
    · have := hb (by rw [hv]; rfl)
      simp [this]
  have hmain : (e0 ++ e1).countP Event.isCreateMaterial = (if s.visual.isSome then 1 else 0) := by
    rw [List.countP_append, he0, hcount, c2, hiff]
    simp
  refine ⟨hmain, ?_⟩
  rw [hmain]
  split <;> omega

/-- C5 (witness): the sample component over two render frames with a renderer
that reports material 11. -/
theorem C5_one_material_witness :
    ([Event.Connect] ++ (exFirstFrameEvents 0 ++ steadyFrameEvents 11 0)).countP
        Event.isCreateMaterial = 1 :=
  (C5_one_material exWavefield 7 exSdf exEcm exFiles [Hook.OnUpdate exFrame, Hook.OnUpdate exFrame]
    (exSteady 0) ([Event.Connect] ++ (exFirstFrameEvents 0 ++ steadyFrameEvents 11 0))
    ⟨rfl, rfl, trivial⟩ rfl).1

/-! ## C6: the one-time parameter block -/

theorem Event.assigns_isRendering (stage : ShaderStage) (name : String) (e : Event)
    (h : Event.assigns stage name e = true) : Event.isRendering e = true := by
  cases e <;> simp_all [Event.assigns, Event.isRendering]

theorem Event.isWriteParamsSet_isSharedAccess (e : Event)
    (h : Event.isWriteParamsSet e = true) : Event.isSharedAccess e = true := by
  cases e <;> simp_all [Event.isWriteParamsSet, Event.isSharedAccess]

/-- C6. Over the lifetime of a component, whatever the number of render frames:
each of the nineteen static slots is assigned exactly once if a material is
bound and not at all otherwise; `paramsSet` is stored (set to true) exactly as
often; `paramsSet` is true exactly when a material is bound; and once true it
is never reset by a later hook call, which assigns none of the static slots
again. -/
theorem C6_params_once (w0 : Wavefield) (_entity : Entity) (_sdf : SdfElement)
    (_ecm : EntityComponentManager) (files : Files) (hooks more : List Hook)
    (s s2 : WaveVisualPrivate) (ev ev2 : List Event)
    (hlife : WaveVisual.lifetime w0 _entity _sdf _ecm files hooks = some (s, ev))
    (hmore : Hook.run s more = some (s2, ev2)) :
    (∀ slot ∈ staticSlots,
        ev.countP (Event.assigns slot.1 slot.2) = if s.material.isSome then 1 else 0) ∧
      ev.countP Event.isWriteParamsSet = (if s.material.isSome then 1 else 0) ∧
      (s.paramsSet = true ↔ s.material.isSome) ∧
      (s.paramsSet = true → s2.paramsSet = true ∧
        ev2.countP Event.isWriteParamsSet = 0 ∧
        ∀ slot ∈ staticSlots, ev2.countP (Event.assigns slot.1 slot.2) = 0) := by
  obtain ⟨s0, e0, e1, hcfg, hrun, rfl⟩ := lifetime_eq_some _ _ _ _ _ _ _ _ hlife
  obtain ⟨c1, c2, c3, c4, c5, c6⟩ := Configure_new _ _ _ _ _ _ _ hcfg
  have hc0 : s0.consistent := by
    unfold WaveVisualPrivate.consistent
    simp [c1, c2, c4]
  have hcons := Hook.run_consistent hooks s0 s e1 hrun hc0
  have hiff : s.paramsSet = s.material.isSome := by
    have := hcons.2.2
    cases hp : s.paramsSet <;> cases hm : s.material.isSome <;> simp_all
  have he0 : ∀ p : Event → Bool, (∀ e, p e = true → Event.isRendering e = true ∨
      Event.isSharedAccess e = true) → e0.countP p = 0 := by
    intro p hp
    rw [List.countP_eq_zero]
    intro e he hpe
    have := c6 e he
    rcases hp e hpe with h | h <;> simp_all
  refine ⟨?_, ?_, hcons.2.2, ?_⟩
  · intro slot hslot
    rw [List.countP_append, he0, Hook.run_count_of_step _
      (fun a b h e hs => Hook.step_count_static a b h e slot hslot hs) hooks s0 s e1 hrun, c4,
      hiff]
    · simp
    · intro e he
      exact Or.inl (Event.assigns_isRendering _ _ e he)
  · rw [List.countP_append, he0, Hook.run_count_of_step _ Hook.step_count_writeParamsSet hooks
      s0 s e1 hrun, c4, hiff]
    · simp
    · intro e he
      exact Or.inr (Event.isWriteParamsSet_isSharedAccess e he)
  · intro hp
    refine ⟨(Hook.run_monotone more s s2 ev2 hmore).2.2.1 hp, ?_, ?_⟩
    · rw [Hook.run_count_of_step _ Hook.step_count_writeParamsSet more s s2 ev2 hmore, hp]
      simp
    · intro slot hslot
      rw [Hook.run_count_of_step _
        (fun a b h e hs => Hook.step_count_static a b h e slot hslot hs) more s s2 ev2 hmore, hp]
      simp

/-- C6 (witness): the sample component over its first render frame, followed by
a simulation step and a second render frame. -/
theorem C6_params_once_witness :
    (∀ slot ∈ staticSlots,
        ([Event.Connect] ++ exFirstFrameEvents 0).countP (Event.assigns slot.1 slot.2)
          = if (exSteady 0).material.isSome then 1 else 0) ∧
      (exSteady 0).material.isSome = true :=
  ⟨(C6_params_once exWavefield 7 exSdf exEcm exFiles [Hook.OnUpdate exFrame]
    [Hook.PreUpdate 5, Hook.OnUpdate exFrame] (exSteady 0) (exSteady 5)
    ([Event.Connect] ++ exFirstFrameEvents 0)
    ([Event.lock, Event.writeSimTime 5, Event.unlock] ++ steadyFrameEvents 11 5) rfl rfl).1, rfl⟩

/-! ## C7: the time uniform -/

theorem stage_eq_three (s : WaveVisualPrivate) (h : s.stage = 3) :
    (∃ v, s.visual = some v) ∧ (∃ m, s.material = some m) ∧ s.paramsSet = true := by
  unfold WaveVisualPrivate.stage at h
  rcases hv : s.visual with _ | v
  · rw [hv] at h; simp at h
  · rcases hm : s.material with _ | m
    · rw [hv, hm] at h; simp at h
    · rw [hv, hm] at h
      refine ⟨⟨v, rfl⟩, ⟨m, rfl⟩, ?_⟩
      by_contra hp
      simp [hp] at h

/-- C7. In the steady state reached during the lifetime of a component, every
call of the render-frame hook returns, leaves the state unchanged, and writes
to the vertex-stage slot `t` of the bound material the value
`float(double(count) * 1e-9)`, where `count` is the nanosecond count of the
stored simulation time. That value differs from `count / 10^9` by a relative
error of at most 2^-24 + 2^-51 for every count (half a unit in the last place
of a float plus the double roundings; neither clamped nor wrapped), and for the
count 2 500 000 000 it is exactly 2.5. -/
theorem C7_time_in_seconds (w0 : Wavefield) (_entity : Entity) (_sdf : SdfElement)
    (_ecm : EntityComponentManager) (files : Files) (hooks : List Hook) (r : Frame)
    (s : WaveVisualPrivate) (ev : List Event)
    (hlife : WaveVisual.lifetime w0 _entity _sdf _ecm files hooks = some (s, ev))
    (hsteady : s.stage = 3) :
    ∃ m, s.material = some m ∧
      WaveVisualPrivate.OnUpdate s r
        = some (s, [Event.lock, Event.readParamsSet, Event.readSimTime,
            Event.VertexShaderParams m,
            Event.assignFloat m .vertex "t" (secondsFloat s.currentSimTime), Event.unlock]) ∧
      |secondsFloat s.currentSimTime - (s.currentSimTime : ℚ) / 10 ^ 9|
        ≤ |(s.currentSimTime : ℚ) / 10 ^ 9| * (2 ^ (-(24 : ℤ)) + 2 ^ (-(51 : ℤ))) ∧
      (s.currentSimTime = 2500000000 → secondsFloat s.currentSimTime = 5 / 2) := by
  obtain ⟨s0, e0, e1, hcfg, hrun, rfl⟩ := lifetime_eq_some _ _ _ _ _ _ _ _ hlife
  obtain ⟨c1, c2, c3, c4, c5, c6⟩ := Configure_new _ _ _ _ _ _ _ hcfg
  have hc0 : s0.consistent := by
    unfold WaveVisualPrivate.consistent
    simp [c1, c2, c4]
  have hcons := Hook.run_consistent hooks s0 s e1 hrun hc0
  obtain ⟨⟨v, hv⟩, ⟨m, hm⟩, hp⟩ := stage_eq_three s hsteady
  obtain ⟨hn, hsc⟩ := hcons.1 (by rw [hv]; rfl)
  obtain ⟨sc, hsc⟩ := Option.isSome_iff_exists.mp hsc
  refine ⟨m, hm, OnUpdate_steady s r sc v m hn hsc hv hm hp, secondsFloat_error _, ?_⟩
  intro ht
  rw [ht]
  exact secondsFloat_two_and_a_half

/-- C7 (witness): the sample component after a simulation step at 2.5 s and its
first render frame; the next render frame writes 2.5 to `t`. -/
theorem C7_time_in_seconds_witness :
    (exSteady 2500000000).stage = 3 ∧
      WaveVisualPrivate.OnUpdate (exSteady 2500000000) exFrame
        = some (exSteady 2500000000, [Event.lock, Event.readParamsSet, Event.readSimTime,
            Event.VertexShaderParams 11, Event.assignFloat 11 .vertex "t" (5 / 2),
            Event.unlock]) := by
  obtain ⟨m, hm, h1, _, h3⟩ := C7_time_in_seconds exWavefield 7 exSdf exEcm exFiles
    [Hook.PreUpdate 2500000000, Hook.OnUpdate exFrame] exFrame (exSteady 2500000000)
    ([Event.Connect] ++ ([Event.lock, Event.writeSimTime 2500000000, Event.unlock]
      ++ exFirstFrameEvents 2500000000)) rfl rfl
  have hm' : m = 11 := by
    have : (exSteady 2500000000).material = some 11 := rfl
    rw [this] at hm
    exact (Option.some.inj hm).symm
  subst hm'
  rw [h3 rfl] at h1
  exact ⟨rfl, h1⟩

/-! ## C8: a descriptor without the wavefield or the shader block -/

theorem OnUpdate_inert (s : WaveVisualPrivate) (r : Frame) (h : s.visualName = "") :
    WaveVisualPrivate.OnUpdate s r = some (s, [Event.lock, Event.unlock]) := by
  simp [WaveVisualPrivate.OnUpdate, h]

theorem Hook.run_inert (hooks : List Hook) :
    ∀ s : WaveVisualPrivate, s.visualName = "" →
      ∃ ev, Hook.run s hooks
          = some ({ s with currentSimTime := lastSimTime s.currentSimTime hooks }, ev) ∧
        ∀ e ∈ ev, Event.isRendering e = false ∧ e ≠ Event.Connect := by
  induction hooks with
  | nil => intro s _; exact ⟨[], rfl, by simp⟩
  | cons h hs ih =>
    intro s hn
    cases h with
    | PreUpdate t =>
      obtain ⟨ev, hrun, hev⟩ := ih { s with currentSimTime := t } hn
      refine ⟨[Event.lock, Event.writeSimTime t, Event.unlock] ++ ev, ?_, ?_⟩
      · simp only [Hook.run, Hook.step, WaveVisual.PreUpdate, hrun]
        rfl
      · intro e he
        rcases List.mem_append.mp he with he | he
        · simp only [List.mem_cons, List.mem_singleton, List.not_mem_nil, or_false] at he
          rcases he with rfl | rfl | rfl <;> simp [Event.isRendering]
        · exact hev e he
    | OnUpdate r =>
      obtain ⟨ev, hrun, hev⟩ := ih s hn
      refine ⟨[Event.lock, Event.unlock] ++ ev, ?_, ?_⟩
      · simp only [Hook.run, Hook.step, OnUpdate_inert s r hn, hrun]
        rfl
      · intro e he
        rcases List.mem_append.mp he with he | he
        · simp only [List.mem_cons, List.mem_singleton, List.not_mem_nil, or_false] at he
          rcases he with rfl | rfl <;> simp [Event.isRendering]
        · exact hev e he

/-- C8. When the descriptor lacks the `<wavefield>` block or the `<shader>`
block, `Configure` logs one error and returns with every field of the
component unchanged and without subscribing the render callback. For a
freshly constructed component this means: entity null, visual name and shader
paths empty, wavefield still the default one, no connection; and every later
sequence of hook calls is defined, leaves scene, visual, material and
`paramsSet` untouched, and makes no rendering call (only `PreUpdate` still
stores the time). -/
theorem C8_missing_block_inert (s : WaveVisualPrivate) (w0 : Wavefield) (_entity : Entity)
    (_sdf : SdfElement) (_ecm : EntityComponentManager) (files : Files) (hooks : List Hook)
    (h : _sdf.wavefield = none ∨ _sdf.shader = none) :
    (∃ msg, WaveVisual.Configure s _entity _sdf _ecm files = some (s, [Event.ignerr msg])) ∧
      (WaveVisualPrivate.new w0).entity = kNullEntity ∧
      (WaveVisualPrivate.new w0).visualName = "" ∧
      (WaveVisualPrivate.new w0).vertexShaderUri = "" ∧
      (WaveVisualPrivate.new w0).fragmentShaderUri = "" ∧
      (WaveVisualPrivate.new w0).wavefield = w0 ∧
      (WaveVisualPrivate.new w0).connection = false ∧
      ∃ ev, WaveVisual.lifetime w0 _entity _sdf _ecm files hooks
          = some ({ WaveVisualPrivate.new w0 with currentSimTime := lastSimTime 0 hooks }, ev) ∧
        ∀ e ∈ ev, Event.isRendering e = false ∧ e ≠ Event.Connect := by
  refine ⟨Configure_inert s _entity _sdf _ecm files h, rfl, rfl, rfl, rfl, rfl, rfl, ?_⟩
  obtain ⟨msg, hcfg⟩ := Configure_inert (WaveVisualPrivate.new w0) _entity _sdf _ecm files h
  obtain ⟨ev, hrun, hev⟩ := Hook.run_inert hooks (WaveVisualPrivate.new w0) rfl
  refine ⟨[Event.ignerr msg] ++ ev, ?_, ?_⟩
  · simp only [WaveVisual.lifetime, hcfg, hrun]
    rfl
  · intro e he
    rcases List.mem_append.mp he with he | he
    · simp only [List.mem_singleton] at he
      subst he
      simp [Event.isRendering]
    · exact hev e he

/-- C8 (witness): the sample descriptor without its `<shader>` block, followed
by a simulation step and a render frame. -/
theorem C8_missing_block_inert_witness :
    WaveVisual.Configure (WaveVisualPrivate.new exWavefield2) 7 exSdfNoShader exEcm exFiles
        = some (WaveVisualPrivate.new exWavefield2, [Event.ignerr "<shader> parameter is missing "]) ∧
      ∃ ev, WaveVisual.lifetime exWavefield2 7 exSdfNoShader exEcm exFiles
            [Hook.PreUpdate 5, Hook.OnUpdate exFrame]
          = some ({ WaveVisualPrivate.new exWavefield2 with
              currentSimTime := lastSimTime 0 [Hook.PreUpdate 5, Hook.OnUpdate exFrame] }, ev) ∧
        ∀ e ∈ ev, Event.isRendering e = false ∧ e ≠ Event.Connect :=
  ⟨rfl, (C8_missing_block_inert (WaveVisualPrivate.new exWavefield2) exWavefield2 7 exSdfNoShader
    exEcm exFiles [Hook.PreUpdate 5, Hook.OnUpdate exFrame] (Or.inr rfl)).2.2.2.2.2.2.2⟩

/-! ## C9: only the first three wave components reach the shader -/

/-- C9. For a wavefield whose vectors have at least three entries, the one-time
block is defined (every index it reads is in range) and copies exactly the
entries 0, 1 and 2 of the amplitude, wavenumber, angular-frequency, direction
and steepness vectors, converted to float, into the buffers `amplitude`,
`wavenumber`, `omega`, `dir0`, `dir1`, `dir2` and `steepness`. Entries at
index 3 and above have no influence: any other such wavefield with the same
entries 0..2, the same wave count and the same `tau` yields the same list of
writes. -/
theorem C9_first_three_only (w : Wavefield) (modelPath : String) (files : Files)
    (m : MaterialPtr) (h : w.hasThreeWaves) :
    ∃ a0 a1 a2 k0 k1 k2 o0 o1 o2 d0 d1 d2 st0 st1 st2 writes,
      w.Amplitude_V[0]? = some a0 ∧ w.Amplitude_V[1]? = some a1 ∧ w.Amplitude_V[2]? = some a2 ∧
      w.Wavenumber_V[0]? = some k0 ∧ w.Wavenumber_V[1]? = some k1 ∧
      w.Wavenumber_V[2]? = some k2 ∧
      w.AngularFrequency_V[0]? = some o0 ∧ w.AngularFrequency_V[1]? = some o1 ∧
      w.AngularFrequency_V[2]? = some o2 ∧
      w.Direction_V[0]? = some d0 ∧ w.Direction_V[1]? = some d1 ∧ w.Direction_V[2]? = some d2 ∧
      w.Steepness_V[0]? = some st0 ∧ w.Steepness_V[1]? = some st1 ∧
      w.Steepness_V[2]? = some st2 ∧
      OnUpdate.shaderParams w modelPath files m = some writes ∧
      Event.UpdateBuffer m .vertex "amplitude" [toFloat a0, toFloat a1, toFloat a2] ∈ writes ∧
      Event.UpdateBuffer m .vertex "wavenumber" [toFloat k0, toFloat k1, toFloat k2] ∈ writes ∧
      Event.UpdateBuffer m .vertex "omega" [toFloat o0, toFloat o1, toFloat o2] ∈ writes ∧
      Event.UpdateBuffer m .vertex "dir0" [toFloat d0.1, toFloat d0.2] ∈ writes ∧
      Event.UpdateBuffer m .vertex "dir1" [toFloat d1.1, toFloat d1.2] ∈ writes ∧
      Event.UpdateBuffer m .vertex "dir2" [toFloat d2.1, toFloat d2.2] ∈ writes ∧
      Event.UpdateBuffer m .vertex "steepness" [toFloat st0, toFloat st1, toFloat st2]
        ∈ writes ∧
      ∀ w' : Wavefield, w'.hasThreeWaves → w'.Number = w.Number → w'.Tau = w.Tau →
        w'.Amplitude_V.take 3 = w.Amplitude_V.take 3 →
        w'.Wavenumber_V.take 3 = w.Wavenumber_V.take 3 →
        w'.AngularFrequency_V.take 3 = w.AngularFrequency_V.take 3 →
        w'.Direction_V.take 3 = w.Direction_V.take 3 →
        w'.Steepness_V.take 3 = w.Steepness_V.take 3 →
        OnUpdate.shaderParams w' modelPath files m = some writes := by
  obtain ⟨ha, hk, ho, hd, hst⟩ := h
  obtain ⟨a0, a1, a2, ha0, ha1, ha2, ha⟩ := firstThree_eq_some _ ha
  obtain ⟨k0, k1, k2, hk0, hk1, hk2, hk⟩ := firstThree_eq_some _ hk
  obtain ⟨o0, o1, o2, ho0, ho1, ho2, ho⟩ := firstThree_eq_some _ ho
  obtain ⟨d0, d1, d2, hd0, hd1, hd2, hd⟩ := firstThree_eq_some _ hd
  obtain ⟨s0, s1, s2, hs0, hs1, hs2, hst⟩ := firstThree_eq_some _ hst
  refine ⟨a0, a1, a2, k0, k1, k2, o0, o1, o2, d0, d1, d2, s0, s1, s2,
    OnUpdate.vertexWrites m w.Number (a0, a1, a2) (k0, k1, k2) (o0, o1, o2) (d0, d1, d2)
      (s0, s1, s2) w.Tau ++ OnUpdate.fragmentWrites m modelPath files,
    ha0, ha1, ha2, hk0, hk1, hk2, ho0, ho1, ho2, hd0, hd1, hd2, hs0, hs1, hs2, ?_, ?_, ?_, ?_,
    ?_, ?_, ?_, ?_, ?_⟩
  · simp [OnUpdate.shaderParams, ha, hk, ho, hd, hst]
  · simp [OnUpdate.vertexWrites]
  · simp [OnUpdate.vertexWrites]
  · simp [OnUpdate.vertexWrites]
  · simp [OnUpdate.vertexWrites]
  · simp [OnUpdate.vertexWrites]
  · simp [OnUpdate.vertexWrites]
  · simp [OnUpdate.vertexWrites]
  · intro w' _ hn ht e1 e2 e3 e4 e5
    simp [OnUpdate.shaderParams, firstThree_take _ _ e1, firstThree_take _ _ e2,
      firstThree_take _ _ e3, firstThree_take _ _ e4, firstThree_take _ _ e5, ha, hk, ho, hd,
      hst, hn, ht]

/-- C9 (witness): two wavefields with five components that differ only at the
indices 3 and 4 produce the same writes. -/
theorem C9_first_three_only_witness :
    exWavefield5.hasThreeWaves ∧ exWavefield5.Amplitude_V ≠ exWavefield5b.Amplitude_V ∧
      OnUpdate.shaderParams exWavefield5 "" exFiles 11
        = OnUpdate.shaderParams exWavefield5b "" exFiles 11 := by
  have hw : exWavefield5.hasThreeWaves := by decide
  obtain ⟨_, _, _, _, _, _, _, _, _, _, _, _, _, _, _, writes, h⟩ :=
    C9_first_three_only exWavefield5 "" exFiles 11 hw
  have h1 := h.2.2.2.2.2.2.2.2.2.2.2.2.2.2.2.1
  have h2 := h.2.2.2.2.2.2.2.2.2.2.2.2.2.2.2.2.2.2.2.2.2.2.2 exWavefield5b (by decide) rfl rfl rfl
    rfl rfl rfl rfl
  exact ⟨hw, by decide, h1.trans h2.symm⟩

/-! ## C10: what happens while the lock is held -/

/-- C10 (counterexample). A render frame of the configured sample component on
a scene without a matching node: between taking and releasing the lock the
hook fetches the scene and traverses the scene graph, both rendering calls. -/
theorem C10_counterexample :
    (WaveVisualPrivate.OnUpdate exConfigured exFrameBare).map Prod.snd
        = some [Event.lock, Event.sceneFromFirstRenderEngine, Event.RootVisual, Event.unlock] ∧
      Event.isRendering Event.sceneFromFirstRenderEngine = true ∧
      Event.isRendering Event.RootVisual = true :=
  ⟨rfl, rfl, rfl⟩

/-- C10 (amended). `PreUpdate` holds the lock for exactly one write of the
simulation time. `OnUpdate` takes the lock once, on entry, and releases it
once, when it returns: everything it does (rendering calls included) happens
while the lock is held. -/
theorem C10_lock_scope (s s' : WaveVisualPrivate) (r : Frame) (ev : List Event) (simTime : Int)
    (h : WaveVisualPrivate.OnUpdate s r = some (s', ev)) :
    (WaveVisual.PreUpdate s simTime).2
        = [Event.lock, Event.writeSimTime simTime, Event.unlock] ∧
      ∃ body, ev = Event.lock :: body ++ [Event.unlock] ∧
        ∀ e ∈ body, Event.isLock e = false :=
  ⟨rfl, OnUpdate_shape s s' r ev h⟩

/-- C10 (witness): the first render frame of the sample component. -/
theorem C10_lock_scope_witness :
    ∃ body, exFirstFrameEvents 0 = Event.lock :: body ++ [Event.unlock] ∧
      ∀ e ∈ body, Event.isLock e = false :=
  (C10_lock_scope exConfigured (exSteady 0) exFrame (exFirstFrameEvents 0) 0 rfl).2
